import Mathlib

/-!
Verification of the library-attendance tracker (check-in/check-out state
resolution and offline sync queue).

Shallow embedding conventions:
* Timestamps (ISO-8601 strings compared through `new Date(s).getTime()` in the
  source) are modelled as `Nat` epoch values.  Calendar days (`date`, format
  YYYY-MM-DD) stay `String` because the source compares them with `===`.
  Where the source parses a date string as a fallback sort key
  (`a.checkInTime || a.date`), the parse is an abstract parameter
  `dv : String -> Nat`.
* `Array.prototype.sort` with a numeric comparator is modelled as a stable
  insertion sort `jsSort` (ES2019 requires sort stability).
* Remote-store (Appwrite) calls are modelled by explicit outcome parameters:
  a query either yields the matching documents or fails, a write either
  yields a server-assigned id or fails.  The remote collection itself is a
  Lean list where a claim talks about remote contents.
* `async/await` code is straight-line state passing; the mutually recursive
  pair `EnhancedAppwriteService.getStudentByAdmissionId` /
  `EnhancedAppwriteService.createStudent` is given a fuel parameter, with
  `none` meaning the recursion did not finish within the given fuel.

Embedded source files: `src/lib/offline-sync.ts` (class `OfflineSyncService`),
`src/lib/appwrite-enhanced.ts` (class `EnhancedAppwriteService`),
`src/lib/appwrite.ts` (class `AppwriteService`; in this snapshot its text is
the corresponding document concatenated inside `src/lib/config-checker.ts`),
and the scan handlers of `src/components/dashboard.tsx`, which run over the
plain `AppwriteService` (`dashboard.tsx` line 61).
-/

namespace LibAttend

/-- Status tag of an attendance record (source: `LibraryRecord.status`). -/
inductive RecStatus where
  | checkedIn
  | checkedOut
deriving DecidableEq, Repr

/-- Attendance record (source: interface `LibraryRecord`).  `id` is `$id`. -/
structure LibraryRecord where
  id : String
  admissionId : String
  studentName : String
  checkInTime : Option Nat
  checkOutTime : Option Nat
  date : String
  status : RecStatus
deriving DecidableEq, Repr

/-- Attendance-record payload without `$id` (source: `Omit<LibraryRecord, "$id">`). -/
structure RecordInput where
  admissionId : String
  studentName : String
  checkInTime : Option Nat
  checkOutTime : Option Nat
  date : String
  status : RecStatus
deriving DecidableEq, Repr

/-- Attach an identifier to a record payload (spread `{ $id, ...record }`). -/
def RecordInput.withId (i : String) (r : RecordInput) : LibraryRecord :=
  ⟨i, r.admissionId, r.studentName, r.checkInTime, r.checkOutTime, r.date, r.status⟩

/-- Roster entry (source: interface `Student`). -/
structure Student where
  id : String
  admissionId : String
  name : String
  email : Option String
  phone : Option String
deriving DecidableEq, Repr

/-- Roster payload without `$id` (source: `Omit<Student, "$id">`). -/
structure StudentInput where
  admissionId : String
  name : String
  email : Option String
  phone : Option String
deriving DecidableEq, Repr

def StudentInput.withId (i : String) (s : StudentInput) : Student :=
  ⟨i, s.admissionId, s.name, s.email, s.phone⟩

/-- Staff login session record (source: interface `LoginRecord`). -/
structure LoginRecord where
  id : String
  staffId : String
  staffName : String
  staffRole : String
  loginTime : Nat
  logoutTime : Option Nat
  sessionDuration : Option Nat
deriving DecidableEq, Repr

/-- Login-record payload without `$id`. -/
structure LoginInput where
  staffId : String
  staffName : String
  staffRole : String
  loginTime : Nat
  logoutTime : Option Nat
  sessionDuration : Option Nat
deriving DecidableEq, Repr

def LoginInput.withId (i : String) (l : LoginInput) : LoginRecord :=
  ⟨i, l.staffId, l.staffName, l.staffRole, l.loginTime, l.logoutTime, l.sessionDuration⟩

/-!  JS partial objects (`Partial<T>`): a field holding `some v` is present in
the update object, `none` means the key is absent, so the stored value is
kept by the object spread `{ ...stored, ...updates }`. -/

/-- Partial attendance record (source: `Partial<LibraryRecord>`). -/
structure RecordPatch where
  id : Option String
  admissionId : Option String
  studentName : Option String
  checkInTime : Option (Option Nat)
  checkOutTime : Option (Option Nat)
  date : Option String
  status : Option RecStatus
deriving DecidableEq, Repr

/-- Object spread `{ ...r, ...p }` for attendance records. -/
def LibraryRecord.applyPatch (r : LibraryRecord) (p : RecordPatch) : LibraryRecord :=
  ⟨p.id.getD r.id, p.admissionId.getD r.admissionId, p.studentName.getD r.studentName,
   p.checkInTime.getD r.checkInTime, p.checkOutTime.getD r.checkOutTime,
   p.date.getD r.date, p.status.getD r.status⟩

/-- Partial roster entry (source: `Partial<Student>`). -/
structure StudentPatch where
  id : Option String
  admissionId : Option String
  name : Option String
  email : Option (Option String)
  phone : Option (Option String)
deriving DecidableEq, Repr

def Student.applyPatch (s : Student) (p : StudentPatch) : Student :=
  ⟨p.id.getD s.id, p.admissionId.getD s.admissionId, p.name.getD s.name,
   p.email.getD s.email, p.phone.getD s.phone⟩

/-- Partial login record (source: `Partial<LoginRecord>`). -/
structure LoginPatch where
  id : Option String
  staffId : Option String
  staffName : Option String
  staffRole : Option String
  loginTime : Option Nat
  logoutTime : Option (Option Nat)
  sessionDuration : Option (Option Nat)
deriving DecidableEq, Repr

def LoginRecord.applyPatch (l : LoginRecord) (p : LoginPatch) : LoginRecord :=
  ⟨p.id.getD l.id, p.staffId.getD l.staffId, p.staffName.getD l.staffName,
   p.staffRole.getD l.staffRole, p.loginTime.getD l.loginTime,
   p.logoutTime.getD l.logoutTime, p.sessionDuration.getD l.sessionDuration⟩

/-! Stable sort model for `Array.prototype.sort(comparator)`. -/

/-- Insert `x` into `l`, keeping `x` behind every element `y` with
`c y x <= 0` (the relative order JS stable sort produces when elements are
taken left to right). -/
def insertByCmp (c : α → α → Int) (x : α) : List α → List α
  | [] => [x]
  | y :: ys => if c y x ≤ 0 then y :: insertByCmp c x ys else x :: y :: ys

/-- Model of `array.sort(c)` as a stable insertion sort. -/
def jsSort (c : α → α → Int) (l : List α) : List α :=
  l.foldl (fun acc x => insertByCmp c x acc) []

/-- Descending comparator `(a, b) => key(b) - key(a)`. -/
def descCmp (k : α → Int) : α → α → Int := fun a b => k b - k a

theorem insertByCmp_perm (c : α → α → Int) (x : α) (l : List α) :
    List.Perm (insertByCmp c x l) (x :: l) := by
  induction l with
  | nil => simp [insertByCmp]
  | cons y ys ih =>
    simp only [insertByCmp]
    by_cases h : c y x ≤ 0
    · simp only [if_pos h]
      exact (ih.cons y).trans (List.Perm.swap x y ys)
    · simp [if_neg h]

theorem mem_insertByCmp {c : α → α → Int} {x a : α} {l : List α} :
    a ∈ insertByCmp c x l ↔ a = x ∨ a ∈ l := by
  rw [(insertByCmp_perm c x l).mem_iff, List.mem_cons]

theorem jsSort_perm (c : α → α → Int) (l : List α) : List.Perm (jsSort c l) l := by
  suffices h : ∀ (l acc : List α),
      List.Perm (l.foldl (fun acc x => insertByCmp c x acc) acc) (acc ++ l) by
    simpa using h l []
  intro l
  induction l with
  | nil => intro acc; simp
  | cons x xs ih =>
    intro acc
    simp only [List.foldl_cons]
    refine (ih (insertByCmp c x acc)).trans ?_
    have h1 : List.Perm (insertByCmp c x acc ++ xs) ((x :: acc) ++ xs) :=
      (insertByCmp_perm c x acc).append_right xs
    refine h1.trans ?_
    simpa using (@List.perm_append_comm _ [x] acc).append_right xs

theorem mem_jsSort {c : α → α → Int} {l : List α} {a : α} :
    a ∈ jsSort c l ↔ a ∈ l :=
  (jsSort_perm c l).mem_iff

/-- Inserting into a list whose head is the strict-max element `x` (when `x`
is present) keeps that property, provided the inserted element is `x` itself
or has a strictly smaller key. -/
theorem head_insertByCmp_of_max (k : α → Int) (x z : α) (acc : List α)
    (hacc : ∀ y ∈ acc, y = x ∨ k y < k x)
    (hheadacc : x ∈ acc → acc.head? = some x)
    (hz : z = x ∨ k z < k x) :
    x ∈ insertByCmp (descCmp k) z acc →
      (insertByCmp (descCmp k) z acc).head? = some x := by
  intro hmem
  cases acc with
  | nil =>
    simp only [insertByCmp] at hmem ⊢
    simp only [List.mem_singleton] at hmem
    simp [hmem]
  | cons y ys =>
    have hy := hacc y (by simp)
    simp only [insertByCmp] at hmem ⊢
    by_cases hc : descCmp k y z ≤ 0
    · -- z goes into the tail, the head stays y
      simp only [if_pos hc] at hmem ⊢
      rcases hy with rfl | hylt
      · rfl
      · exfalso
        rcases hz with rfl | hzlt
        · -- z = x behind y although k y < k x: comparator forbids it
          simp only [descCmp] at hc
          omega
        · -- x is neither y nor z, so x ∈ ys; then the head of y :: ys was x
          have hxys : x ∈ ys := by
            rcases List.mem_cons.mp hmem with h | h
            · exact absurd h (by intro h'; rw [h'] at hylt; omega)
            · rcases mem_insertByCmp.mp h with h' | h'
              · rw [h'] at hzlt; omega
              · exact h'
          have := hheadacc (List.mem_cons_of_mem y hxys)
          simp only [List.head?_cons, Option.some.injEq] at this
          rw [this] at hylt; omega
    · -- z is placed at the head: show z = x
      simp only [if_neg hc] at hmem ⊢
      rcases hz with rfl | hzlt
      · rfl
      · exfalso
        have hxmem : x ∈ y :: ys := by
          rcases List.mem_cons.mp hmem with h | h
          · rw [h] at hzlt; omega
          · exact h
        have := hheadacc hxmem
        simp only [List.head?_cons, Option.some.injEq] at this
        rcases hy with hyx | hylt
        · -- y = x at the head, but k y < k z < k x contradicts descCmp k y z > 0
          simp only [descCmp, not_le] at hc
          rw [hyx] at hc; omega
        · rw [this] at hylt; omega

/-- After a stable descending sort, a strictly maximal element of the list is
at the head. -/
theorem jsSort_head_of_strictMax (k : α → Int) (x : α) (l : List α)
    (hx : x ∈ l) (hmax : ∀ y ∈ l, y = x ∨ k y < k x) :
    (jsSort (descCmp k) l).head? = some x := by
  suffices h : ∀ (l acc : List α), (∀ y ∈ l, y = x ∨ k y < k x) →
      (∀ y ∈ acc, y = x ∨ k y < k x) → (x ∈ acc → acc.head? = some x) →
      (x ∈ acc ∨ x ∈ l) →
      (l.foldl (fun a b => insertByCmp (descCmp k) b a) acc).head? = some x by
    exact h l [] hmax (by simp) (by simp) (Or.inr hx)
  intro l
  induction l with
  | nil =>
    intro acc _ _ hhead hd
    rcases hd with h | h
    · exact hhead h
    · simp at h
  | cons z zs ih =>
    intro acc hl hacc hhead hd
    have hz := hl z (by simp)
    simp only [List.foldl_cons]
    refine ih (insertByCmp (descCmp k) z acc) (fun y hy => hl y (List.mem_cons_of_mem z hy))
      ?_ (head_insertByCmp_of_max k x z acc hacc hhead hz) ?_
    · intro y hy
      rcases mem_insertByCmp.mp hy with h | h
      · rw [h]; exact hz
      · exact hacc y h
    · rcases hd with h | h
      · exact Or.inl (mem_insertByCmp.mpr (Or.inr h))
      · rcases List.mem_cons.mp h with h' | h'
        · exact Or.inl (mem_insertByCmp.mpr (Or.inl h'))
        · exact Or.inr h'

/-! Offline sync queue (source: `src/lib/offline-sync.ts`, class
`OfflineSyncService`). -/

/-- Payload of a queued mutation.  The source stores `type` ("create",
"update", "delete"), `collection` ("records", "students", "staff",
"login-records") and an untyped `data` object; here one constructor covers
each `(type, collection)` pair the enhanced write path enqueues, carrying the
exact data shape passed to `addToSyncQueue`. -/
inductive QueuePayload where
  | recordCreate (data : RecordInput)
  | recordUpdate (id : String) (p : RecordPatch)
  | recordDelete (id : String)
  | studentCreate (data : StudentInput)
  | studentUpdate (id : String) (p : StudentPatch)
  | studentDelete (id : String)
  | loginCreate (data : LoginInput)
  | loginUpdate (id : String) (p : LoginPatch)
deriving DecidableEq, Repr

/-- Source: interface `SyncQueueItem` in offline-sync.ts. -/
structure SyncQueueItem where
  id : String
  payload : QueuePayload
  timestamp : Nat
  retryCount : Nat
  localId : Option String
deriving DecidableEq, Repr

/-- Source: `private maxRetries = 3`. -/
def maxRetries : Nat := 3

/-- The in-place `item.retryCount++` of a failed sync attempt. -/
def bumpRetry (it : SyncQueueItem) : SyncQueueItem :=
  { it with retryCount := it.retryCount + 1 }

/-- One serialized pass of `attemptSync` over a queue snapshot.  `ok`
abstracts whether `syncItem(item)` resolves or throws (the remote store is an
external collaborator).  Failed items get `retryCount++`; the pass then keeps
exactly the items whose id landed in neither `successfulItems` nor
`failedItems` (the latter collects items whose new `retryCount` reached
`maxRetries`). -/
def attemptSyncPass (ok : SyncQueueItem → Bool) (queue : List SyncQueueItem) :
    List SyncQueueItem :=
  let processed := queue.map (fun it => if ok it then it else bumpRetry it)
  let successIds := (queue.filter (fun it => ok it)).map (fun it => it.id)
  let failedIds :=
    (queue.filter (fun it => !ok it && decide (maxRetries ≤ it.retryCount + 1))).map
      (fun it => it.id)
  processed.filter (fun it => !successIds.contains it.id && !failedIds.contains it.id)

/-- The `pendingItems` field of `getSyncStatus`. -/
def pendingCount (q : List SyncQueueItem) : Nat := q.length

/-- The `failedItems` field of `getSyncStatus`:
`syncQueue.filter(item => item.retryCount >= maxRetries).length`. -/
def failedStatusCount (q : List SyncQueueItem) : Nat :=
  (q.filter (fun it => decide (maxRetries ≤ it.retryCount))).length

/-- Membership in the post-pass queue: the element is a processed copy of a
snapshot item whose id landed in neither id list. -/
theorem mem_attemptSyncPass_iff {ok : SyncQueueItem → Bool} {q : List SyncQueueItem}
    {j : SyncQueueItem} :
    j ∈ attemptSyncPass ok q ↔
      (∃ it ∈ q, (if ok it then it else bumpRetry it) = j) ∧
      (∀ it ∈ q, ok it = true → ¬ it.id = j.id) ∧
      (∀ it ∈ q, ok it = false → maxRetries ≤ it.retryCount + 1 → ¬ it.id = j.id) := by
  simp only [attemptSyncPass, List.mem_filter, List.mem_map, Bool.and_eq_true,
    Bool.not_eq_true', List.elem_eq_mem, decide_eq_false_iff_not, List.mem_map,
    List.mem_filter, not_exists, not_and, Bool.not_eq_true]
  constructor
  · rintro ⟨⟨it, hit, rfl⟩, hsucc, hfail⟩
    refine ⟨⟨it, hit, rfl⟩, ?_, ?_⟩
    · intro a ha hok heq
      exact hsucc a ⟨ha, hok⟩ heq
    · intro a ha hok hceil heq
      exact hfail a ⟨ha, by simp [hok, hceil]⟩ heq
  · rintro ⟨⟨it, hit, rfl⟩, hsucc, hfail⟩
    refine ⟨⟨it, hit, rfl⟩, ?_, ?_⟩
    · intro a ⟨ha, hok⟩ heq
      exact hsucc a ha hok heq
    · intro a ⟨ha, hcond⟩ heq
      simp only [Bool.and_eq_true, Bool.not_eq_true', decide_eq_true_eq] at hcond
      exact hfail a ha hcond.1 hcond.2 heq

theorem retryCount_lt_of_mem_attemptSyncPass (ok : SyncQueueItem → Bool)
    (q : List SyncQueueItem) :
    ∀ j ∈ attemptSyncPass ok q, j.retryCount < maxRetries := by
  intro j hj
  obtain ⟨⟨it, hit, hj_eq⟩, hsucc, hfail⟩ := mem_attemptSyncPass_iff.mp hj
  by_cases hok : ok it
  · exact absurd (congrArg SyncQueueItem.id (by simpa [hok] using hj_eq))
      (fun h => hsucc it hit hok h)
  · have hj_eq' : bumpRetry it = j := by simpa [hok] using hj_eq
    by_cases hceil : maxRetries ≤ it.retryCount + 1
    · exact absurd (congrArg SyncQueueItem.id hj_eq')
        (fun h => hfail it hit (by simpa using hok) hceil (by simpa [bumpRetry] using h))
    · have : j.retryCount = it.retryCount + 1 := by
        rw [← hj_eq']; rfl
      omega

/-- After every sync pass, `getSyncStatus().failedItems` is zero: the items
that reached the ceiling were removed from the queue in the same pass. -/
theorem failedStatusCount_attemptSyncPass (ok : SyncQueueItem → Bool)
    (q : List SyncQueueItem) : failedStatusCount (attemptSyncPass ok q) = 0 := by
  rw [failedStatusCount, List.length_eq_zero, List.filter_eq_nil_iff]
  intro j hj
  have := retryCount_lt_of_mem_attemptSyncPass ok q j hj
  simp only [decide_eq_true_eq]
  omega

theorem bump_mem_attemptSyncPass (ok : SyncQueueItem → Bool) (q : List SyncQueueItem)
    (hnodup : (q.map SyncQueueItem.id).Nodup) (it : SyncQueueItem) (hit : it ∈ q)
    (hfail : ok it = false) (hlt : it.retryCount + 1 < maxRetries) :
    bumpRetry it ∈ attemptSyncPass ok q := by
  have hinj : ∀ a ∈ q, ∀ b ∈ q, a.id = b.id → a = b :=
    List.inj_on_of_nodup_map hnodup
  refine mem_attemptSyncPass_iff.mpr ⟨⟨it, hit, by simp [hfail]⟩, ?_, ?_⟩
  · intro a ha hok heq
    have : a = it := hinj a ha it hit (by simpa [bumpRetry] using heq)
    subst this
    simp [hok] at hfail
  · intro a ha hok hceil heq
    have : a = it := hinj a ha it hit (by simpa [bumpRetry] using heq)
    subst this
    omega

theorem removed_of_ceiling_attemptSyncPass (ok : SyncQueueItem → Bool)
    (q : List SyncQueueItem) (it : SyncQueueItem) (hit : it ∈ q)
    (hfail : ok it = false) (hceil : maxRetries ≤ it.retryCount + 1) :
    ∀ j ∈ attemptSyncPass ok q, j.id ≠ it.id := by
  intro j hj heq
  obtain ⟨_, _, hfailid⟩ := mem_attemptSyncPass_iff.mp hj
  exact hfailid it hit hfail hceil heq.symm

/-! Sync trigger policy (source: `setupNetworkDetection`, `startPeriodicSync`,
`addToSyncQueue`, `forcSync`, and the entry guard of `attemptSync`).  A
running `attemptSync` suspends at each `await syncItem(item)`, so other
events interleave with it; the machine below carries the running pass as an
explicit job between those suspension points. -/

/-- The progress of one running `attemptSync` invocation: the not yet
attempted part of its `itemsToSync` snapshot, and the ids collected in
`successfulItems` / `failedItems` so far. -/
structure SyncJob where
  remaining : List SyncQueueItem
  successIds : List String
  failedIds : List String
deriving DecidableEq, Repr

/-- The sync-service state: the live queue, the connectivity and in-flight
flags, and the suspended pass (exactly one can exist, as the source has a
single `isSyncing` guard and JavaScript a single thread). -/
structure SyncMachine where
  queue : List SyncQueueItem
  isOnline : Bool
  isSyncing : Bool
  job : Option SyncJob
deriving DecidableEq, Repr

/-- The entry of `attemptSync`: the guard
`if (isSyncing || !isOnline || queue.length === 0) return`, then
`isSyncing = true` and the snapshot `itemsToSync = [...syncQueue]`. -/
def attemptSyncEntry (st : SyncMachine) : SyncMachine :=
  if st.isSyncing ∨ st.isOnline = false ∨ st.queue.isEmpty then st
  else { st with isSyncing := true, job := some ⟨st.queue, [], []⟩ }

/-- One resumption of the running pass: attempt the next snapshot item
(collecting its id on success; on failure bumping `retryCount` on the shared
object, i.e. on the live-queue entry with that id, and collecting the id
when the bumped count reaches the ceiling), or — when the snapshot is
exhausted — remove the collected ids from the live queue, clear the flag and
finish.  Without a running job the event does nothing. -/
def syncStep (ok : SyncQueueItem → Bool) (st : SyncMachine) : SyncMachine :=
  match st.job with
  | none => st
  | some job =>
    match job.remaining with
    | [] =>
      { st with
        queue := st.queue.filter (fun it =>
          !job.successIds.contains it.id && !job.failedIds.contains it.id),
        isSyncing := false, job := none }
    | it :: rest =>
      if ok it then
        { st with job := some ⟨rest, job.successIds ++ [it.id], job.failedIds⟩ }
      else
        { st with
          queue := st.queue.map (fun j => if j.id == it.id then bumpRetry j else j),
          job := some ⟨rest, job.successIds,
            if maxRetries ≤ it.retryCount + 1 then job.failedIds ++ [it.id]
            else job.failedIds⟩ }

/-- The four events that can start a sync attempt.  An enqueue carries the
arguments of `addToSyncQueue`, which builds the item itself (with
`retryCount: 0`). -/
inductive SyncTrigger where
  | enqueueOnline (qid : String) (payload : QueuePayload) (qts : Nat)
      (localId : Option String)
  | periodicTimer
  | onlineEvent
  | forceSync
deriving DecidableEq, Repr

/-- Dispatch of each trigger, following the source: `addToSyncQueue` pushes
then calls `attemptSync` when online; the 30-second timer calls it when
online, not syncing and the queue is non-empty; the browser online event sets
the flag then calls it; `forcSync` calls it directly. -/
def fireTrigger (t : SyncTrigger) (st : SyncMachine) : SyncMachine :=
  match t with
  | .enqueueOnline qid payload qts localId =>
    let st1 := { st with queue := st.queue ++ [⟨qid, payload, qts, 0, localId⟩] }
    if st1.isOnline then attemptSyncEntry st1 else st1
  | .periodicTimer =>
    if st.isOnline ∧ st.isSyncing = false ∧ 0 < st.queue.length
    then attemptSyncEntry st else st
  | .onlineEvent => attemptSyncEntry { st with isOnline := true }
  | .forceSync => attemptSyncEntry st

/-- Iterated pass resumptions. -/
def runSteps (ok : SyncQueueItem → Bool) : Nat → SyncMachine → SyncMachine
  | 0, st => st
  | n + 1, st => runSteps ok n (syncStep ok st)

/-! Plain `AppwriteService` (source: `src/lib/appwrite.ts` — in this source
snapshot its text is the `class AppwriteService` document carrying
`getStudentCurrentStatus` and `checkAdmissionIdExists`, concatenated inside
`src/lib/config-checker.ts`).  This is the service instance the dashboard
obtains through `OfflineSyncService.getAppwriteService()`.  The functions
below model its localStorage fallback paths, taken whenever the service is
not configured; `_plainLocal` marks them. -/

/-- Sort key `new Date(r.checkInTime || r.date).getTime()` used by
`getStudentCurrentStatus`; `dv` abstracts parsing a date string. -/
def recTimeKey (dv : String → Nat) (r : LibraryRecord) : Int :=
  match r.checkInTime with
  | some t => (t : Int)
  | none => (dv r.date : Int)

/-- Comparator of the local fallback of plain `getRecordsByDate`:
`if (!a.checkInTime || !b.checkInTime) return 0` else descending by
`checkInTime`. -/
def plainDateCmp : LibraryRecord → LibraryRecord → Int :=
  fun a b =>
    match a.checkInTime, b.checkInTime with
    | some ta, some tb => (tb : Int) - (ta : Int)
    | _, _ => 0

/-- Plain `getRecordsByDate`, localStorage fallback: filter by day, then sort. -/
def getRecordsByDate_plainLocal (recs : List LibraryRecord) (date : String) :
    List LibraryRecord :=
  jsSort plainDateCmp (recs.filter (fun r => r.date == date))

/-- The `getStudentCurrentStatus(admissionId, date)` method (same body in
`AppwriteService` and `EnhancedAppwriteService`), over the local read path:
filter the day records by subject, sort them most-recent-first, and report
whether the newest one is `checked-in`. -/
def getStudentCurrentStatus_local (dv : String → Nat) (recs : List LibraryRecord)
    (admissionId date : String) : Bool × Option LibraryRecord :=
  let todaysRecords := getRecordsByDate_plainLocal recs date
  let studentRecords :=
    jsSort (descCmp (recTimeKey dv))
      (todaysRecords.filter (fun r => r.admissionId == admissionId))
  let lastRecord := studentRecords.head?
  (match lastRecord with
   | some r => r.status == RecStatus.checkedIn
   | none => false, lastRecord)

/-- The `findIndex` + in-place assignment idiom: rewrite the first element
satisfying `p`, returning the new list and the new element, or `none` when no
element matches. -/
def updateFirst (p : α → Bool) (f : α → α) : List α → Option (List α × α)
  | [] => none
  | x :: xs =>
    if p x then some (f x :: xs, f x)
    else (updateFirst p f xs).map (fun r => (x :: r.1, r.2))

/-- Plain `updateRecord`, localStorage fallback: find by `$id`, merge the
updates over the stored record, or `throw new Error("Record not found")`. -/
def updateRecord_plainLocal (recs : List LibraryRecord) (recordId : String)
    (updates : RecordPatch) : Except Unit (LibraryRecord × List LibraryRecord) :=
  match updateFirst (fun r => r.id == recordId) (fun r => r.applyPatch updates) recs with
  | some (l, v) => .ok (v, l)
  | none => .error ()

/-- Plain `createRecord`, localStorage fallback: build the record under a
generated local id and push it — no validation and no rejection happen at
this storage layer. -/
def createRecord_plainLocal (recs : List LibraryRecord) (localId : String)
    (record : RecordInput) : LibraryRecord × List LibraryRecord :=
  (record.withId localId, recs ++ [record.withId localId])

/-- Plain `checkAdmissionIdExists`, localStorage fallback (case-insensitive,
with `trim` on the probe). -/
def checkAdmissionIdExists_plainLocal (students : List Student)
    (admissionId : String) : Bool :=
  students.any (fun s => s.admissionId.toLower == admissionId.toLower.trim)

/-- Plain `createStudent` in local mode: duplicate pre-check through
`checkAdmissionIdExists`, then the localStorage fallback which double-checks
case-insensitively before pushing the new roster entry. -/
def createStudent_plainLocal (students : List Student) (localId : String)
    (stu : StudentInput) : Except Unit (Student × List Student) :=
  if checkAdmissionIdExists_plainLocal students stu.admissionId then .error ()
  else if students.any (fun s => s.admissionId.toLower == stu.admissionId.toLower)
  then .error ()
  else
    let newStudent := stu.withId localId
    .ok (newStudent, students ++ [newStudent])

/-- Plain `getStudentByAdmissionId` in local mode: exact-match lookup in the
local roster, lazily creating `Student <admissionId>` when absent. -/
def getStudentByAdmissionId_plainLocal (students : List Student) (localId : String)
    (admissionId : String) : Except Unit (Student × List Student) :=
  match students.find? (fun s => s.admissionId == admissionId) with
  | some s => .ok (s, students)
  | none =>
    createStudent_plainLocal students localId
      ⟨admissionId, "Student " ++ admissionId, none, none⟩

/-! Attendance state resolver (source: `handleScan` / `handleCheckIn` /
`handleCheckOut` in `src/components/dashboard.tsx`), in local mode. -/

/-- Local persistent state the scan path touches. -/
structure ScanState where
  records : List LibraryRecord
  students : List Student
deriving DecidableEq, Repr

/-- What a single scan did. -/
inductive ScanAction where
  | opened
  | closed
  | checkInFailed
  | checkOutFailed
  | skipped
deriving DecidableEq, Repr

/-- The update object `{ ...record, checkOutTime: now, status: "checked-out" }`
built by `handleCheckOut`. -/
def closePatch (r : LibraryRecord) (now : Nat) : RecordPatch :=
  ⟨some r.id, some r.admissionId, some r.studentName, some r.checkInTime,
   some (some now), some r.date, some RecStatus.checkedOut⟩

/-- `handleCheckOut(record)`: guard that the record is still `checked-in`,
then close it through `updateRecord`; a thrown error is caught (toast only). -/
def handleCheckOut_local (st : ScanState) (r : LibraryRecord) (now : Nat) :
    ScanState × ScanAction :=
  if r.status != RecStatus.checkedIn then (st, .skipped)
  else
    match updateRecord_plainLocal st.records r.id (closePatch r now) with
    | .ok (_, l) => ({ st with records := l }, .closed)
    | .error _ => (st, .checkOutFailed)

/-- `handleCheckIn(admissionId)`: look up (lazily creating) the roster entry,
then create the new `checked-in` record; a thrown error is caught. -/
def handleCheckIn_local (st : ScanState) (aid : String) (now : Nat) (today : String)
    (recId sid : String) : ScanState × ScanAction :=
  match getStudentByAdmissionId_plainLocal st.students sid aid with
  | .error _ => (st, .checkInFailed)
  | .ok (studentData, students1) =>
    let studentName :=
      if studentData.name == "" then "Student " ++ aid else studentData.name
    let newRecord : RecordInput :=
      ⟨aid, studentName, some now, none, today, RecStatus.checkedIn⟩
    let created := createRecord_plainLocal st.records recId newRecord
    ({ records := created.2, students := students1 }, .opened)

/-- One serialized scan (`handleScan`): consult `getStudentCurrentStatus` and
either close the most recent record or open a new one. -/
def handleScan_local (dv : String → Nat) (st : ScanState) (aid today : String)
    (now : Nat) (recId sid : String) : ScanState × ScanAction :=
  let studentStatus := getStudentCurrentStatus_local dv st.records aid today
  if studentStatus.1 then
    match studentStatus.2 with
    | some r => handleCheckOut_local st r now
    | none => (st, .skipped)
  else handleCheckIn_local st aid now today recId sid

/-- A serialized sequence of scans of the same subject on the same day, at
the given times; the k-th scan uses `recIds k` / `sids k` as the generated
local identifiers. -/
def runScans (dv : String → Nat) (aid today : String) (recIds sids : Nat → String) :
    ScanState → List Nat → Nat → ScanState × List ScanAction
  | st, [], _ => (st, [])
  | st, t :: ts, k =>
    let step := handleScan_local dv st aid today t (recIds k) (sids k)
    let rest := runScans dv aid today recIds sids step.1 ts (k + 1)
    (rest.1, step.2 :: rest.2)

/-- The strictly alternating action sequence: open, close, open, ... when `b`
is `true`, close, open, close, ... when `b` is `false`. -/
def altActions : Nat → Bool → List ScanAction
  | 0, _ => []
  | n + 1, b => (if b then ScanAction.opened else ScanAction.closed) :: altActions n (!b)

/-- Number of simultaneously open (`checked-in`) records of one subject on
one day. -/
def openCount (aid today : String) (recs : List LibraryRecord) : Nat :=
  (recs.filter (fun r =>
    r.admissionId == aid && r.date == today && r.status == RecStatus.checkedIn)).length

/-- Roster state under which the scan-path lazy-create cannot throw: either
the subject already has an exact roster entry, or no entry collides with it
under the case-insensitive duplicate checks. -/
def StudentsInv (aid : String) (students : List Student) : Prop :=
  (∃ s ∈ students, s.admissionId = aid) ∨
  (∀ s ∈ students, ¬ s.admissionId.toLower = aid.toLower.trim ∧
    ¬ s.admissionId.toLower = aid.toLower)

/-- Every generated record id of index at least `k` is still unused. -/
def FreshRec (recIds : Nat → String) (k : Nat) (recs : List LibraryRecord) : Prop :=
  ∀ r ∈ recs, ∀ j, k ≤ j → ¬ r.id = recIds j

/-- Between-scan state, closed phase: every record of the subject for the day
is `checked-out`, with a check-in time below every future scan time. -/
def InvClosed (aid today : String) (ts : List Nat) (recs : List LibraryRecord) : Prop :=
  ∀ r ∈ recs, r.admissionId = aid → r.date = today →
    r.status = RecStatus.checkedOut ∧ ∃ u, r.checkInTime = some u ∧ ∀ t ∈ ts, u < t

/-- Between-scan state, open phase: one record of the subject is open; it
carries the strictly largest check-in time among the subject records of the
day, its id occurs exactly once, and every future scan time lies above it. -/
def InvOpen (aid today : String) (ts : List Nat) (recs : List LibraryRecord) : Prop :=
  ∃ ropen tk, ropen ∈ recs ∧ ropen.admissionId = aid ∧ ropen.date = today ∧
    ropen.status = RecStatus.checkedIn ∧ ropen.checkInTime = some tk ∧
    (∀ t ∈ ts, tk < t) ∧
    (∀ r ∈ recs, r.admissionId = aid → r.date = today → r ≠ ropen →
      r.status = RecStatus.checkedOut ∧ ∃ u, r.checkInTime = some u ∧ u < tk) ∧
    recs.filter (fun r => r.id == ropen.id) = [ropen]

/-- The list `getStudentCurrentStatus` sorts holds exactly the records of the
subject for the day. -/
theorem mem_statusPool (dv : String → Nat) (recs : List LibraryRecord)
    (aid today : String) (y : LibraryRecord) :
    y ∈ jsSort (descCmp (recTimeKey dv))
        ((getRecordsByDate_plainLocal recs today).filter
          (fun r => r.admissionId == aid)) ↔
      y ∈ recs ∧ y.admissionId = aid ∧ y.date = today := by
  simp only [mem_jsSort, List.mem_filter, getRecordsByDate_plainLocal, beq_iff_eq]
  tauto

/-- Under `StudentsInv` the roster lookup of the check-in path succeeds and
preserves `StudentsInv`. -/
theorem getStudent_plainLocal_ok (students : List Student) (sid aid : String)
    (hroster : StudentsInv aid students) :
    ∃ stu students1,
      getStudentByAdmissionId_plainLocal students sid aid = .ok (stu, students1) ∧
      StudentsInv aid students1 := by
  unfold getStudentByAdmissionId_plainLocal
  cases hfind : students.find? (fun s => s.admissionId == aid) with
  | some s => exact ⟨s, students, rfl, hroster⟩
  | none =>
    rcases hroster with ⟨s, hs, hseq⟩ | hnone
    · exfalso
      have := List.find?_eq_none.mp hfind s hs
      simp [hseq] at this
    · have h1 : checkAdmissionIdExists_plainLocal students aid = false := by
        rw [checkAdmissionIdExists_plainLocal, List.any_eq_false]
        intro s hs
        simpa using (hnone s hs).1
      have h2 : students.any (fun s => s.admissionId.toLower == aid.toLower) = false := by
        rw [List.any_eq_false]
        intro s hs
        simpa using (hnone s hs).2
      refine ⟨⟨sid, aid, "Student " ++ aid, none, none⟩,
        students ++ [⟨sid, aid, "Student " ++ aid, none, none⟩], ?_, ?_⟩
      · simp [createStudent_plainLocal, h1, h2, StudentInput.withId]
      · exact Or.inl ⟨⟨sid, aid, "Student " ++ aid, none, none⟩, by simp, rfl⟩

/-- When exactly one element satisfies `p` (and it is `x`), `updateFirst`
replaces that occurrence. -/
theorem updateFirst_of_filter_singleton (p : α → Bool) (f : α → α) :
    ∀ (l : List α) (x : α), l.filter p = [x] →
    ∃ l₁ l₂, l = l₁ ++ x :: l₂ ∧ (∀ y ∈ l₁, p y = false) ∧ (∀ y ∈ l₂, p y = false) ∧
      updateFirst p f l = some (l₁ ++ f x :: l₂, f x) := by
  intro l
  induction l with
  | nil => intro x h; simp at h
  | cons a as ih =>
    intro x h
    by_cases hp : p a
    · rw [List.filter_cons_of_pos hp] at h
      have ha : a = x := by
        have := congrArg List.head? h
        simpa using this
      have htail : as.filter p = [] := by
        have := congrArg List.tail h
        simpa using this
      subst ha
      refine ⟨[], as, by simp, by simp, ?_, ?_⟩
      · exact fun y hy => Bool.eq_false_iff.mpr (List.filter_eq_nil_iff.mp htail y hy)
      · simp [updateFirst, hp]
    · rw [List.filter_cons_of_neg hp] at h
      obtain ⟨l₁, l₂, rfl, h1, h2, hupd⟩ := ih x h
      refine ⟨a :: l₁, l₂, rfl, ?_, h2, ?_⟩
      · intro y hy
        rcases List.mem_cons.mp hy with rfl | hy'
        · simpa using hp
        · exact h1 y hy'
      · simp [updateFirst, hp, hupd]

theorem countP_le_count_of_unique [DecidableEq α] (p : α → Bool) (a : α) :
    ∀ (l : List α), (∀ x ∈ l, p x → x = a) → l.countP p ≤ l.count a := by
  intro l
  induction l with
  | nil => simp
  | cons b bs ih =>
    intro h
    have hbs := fun x hx => h x (List.mem_cons_of_mem b hx)
    by_cases hp : p b
    · have hb : b = a := h b (by simp) hp
      subst hb
      rw [List.countP_cons_of_pos _ _ hp, List.count_cons_self]
      have := ih hbs
      omega
    · rw [List.countP_cons_of_neg _ _ hp]
      calc bs.countP p ≤ bs.count a := ih hbs
        _ ≤ (b :: bs).count a := List.count_le_count_cons a b bs

/-- The open record of `InvOpen` occurs at most once in the list. -/
theorem openCount_le_one_of_invOpen (aid today : String) (ts : List Nat)
    (recs : List LibraryRecord) (h : InvOpen aid today ts recs) :
    openCount aid today recs ≤ 1 := by
  obtain ⟨ropen, tk, hmem, haid, hdate, hstat, hci, _, hothers, hfilter⟩ := h
  rw [openCount, ← List.countP_eq_length_filter]
  have hcount : recs.count ropen ≤ 1 := by
    have : recs.count ropen ≤ recs.countP (fun r => r.id == ropen.id) := by
      rw [List.count]
      refine List.countP_mono_left ?_
      intro x _ hx
      have : x = ropen := by simpa using hx
      simp [this]
    rw [List.countP_eq_length_filter, hfilter] at this
    simpa using this
  refine le_trans (countP_le_count_of_unique _ ropen recs ?_) hcount
  intro x hxmem hx
  simp only [Bool.and_eq_true, beq_iff_eq] at hx
  obtain ⟨⟨hxa, hxd⟩, hxs⟩ := hx
  by_contra hne
  have := (hothers x hxmem hxa hxd hne).1
  rw [this] at hxs
  exact absurd hxs (by simp)

/-- The closed phase has no open record of the subject. -/
theorem openCount_zero_of_invClosed (aid today : String) (ts : List Nat)
    (recs : List LibraryRecord) (h : InvClosed aid today ts recs) :
    openCount aid today recs = 0 := by
  rw [openCount, List.length_eq_zero, List.filter_eq_nil_iff]
  intro r hr hcond
  simp only [Bool.and_eq_true, beq_iff_eq] at hcond
  obtain ⟨⟨ha, hd⟩, hs⟩ := hcond
  have := (h r hr ha hd).1
  rw [this] at hs
  exact absurd hs (by simp)

theorem freshRec_mono (recIds : Nat → String) {k k' : Nat} (h : k ≤ k')
    {recs : List LibraryRecord} (hf : FreshRec recIds k recs) :
    FreshRec recIds k' recs :=
  fun r hr j hj => hf r hr j (le_trans h hj)

/-- A scan in the closed phase opens a new record and moves to the open
phase. -/
theorem scan_open_step (dv : String → Nat) (aid today : String)
    (recIds sids : Nat → String) (hinj : ∀ i j, recIds i = recIds j → i = j)
    (k t : Nat) (ts' : List Nat) (st : ScanState)
    (hinv : InvClosed aid today (t :: ts') st.records)
    (hfresh : FreshRec recIds k st.records)
    (hroster : StudentsInv aid st.students)
    (hfuture : ∀ u ∈ ts', t < u) :
    ∃ st1, handleScan_local dv st aid today t (recIds k) (sids k) = (st1, .opened) ∧
      InvOpen aid today ts' st1.records ∧
      FreshRec recIds (k + 1) st1.records ∧
      StudentsInv aid st1.students := by
  obtain ⟨stu, students1, hG, hroster1⟩ :=
    getStudent_plainLocal_ok st.students (sids k) aid hroster
  have hstat : (getStudentCurrentStatus_local dv st.records aid today).1 = false := by
    simp only [getStudentCurrentStatus_local]
    cases hL : (jsSort (descCmp (recTimeKey dv))
        ((getRecordsByDate_plainLocal st.records today).filter
          (fun r => r.admissionId == aid))).head? with
    | none => simp [hL]
    | some y =>
      have hy := (mem_statusPool dv st.records aid today y).mp
        (List.mem_of_mem_head? (by simp [hL]))
      have := (hinv y hy.1 hy.2.1 hy.2.2).1
      simp [hL, this]
  set newRec : LibraryRecord :=
    ⟨recIds k, aid, if stu.name == "" then "Student " ++ aid else stu.name,
     some t, none, today, RecStatus.checkedIn⟩ with hnewRec
  refine ⟨⟨st.records ++ [newRec], students1⟩, ?_, ?_, ?_, hroster1⟩
  · rw [handleScan_local]
    simp only [hstat, if_false, Bool.false_eq_true]
    rw [handleCheckIn_local, hG]
    rfl
  · refine ⟨newRec, t, by simp, rfl, rfl, rfl, rfl, hfuture, ?_, ?_⟩
    · intro r hr ha hd hne
      rcases List.mem_append.mp hr with hr' | hr'
      · obtain ⟨hout, u, hu, hlt⟩ := hinv r hr' ha hd
        exact ⟨hout, u, hu, hlt t (by simp)⟩
      · simp only [List.mem_singleton] at hr'
        exact absurd hr' hne
    · rw [List.filter_append]
      have h1 : st.records.filter (fun r => r.id == newRec.id) = [] := by
        rw [List.filter_eq_nil_iff]
        intro r hr
        simpa using hfresh r hr k (le_refl k)
      rw [h1]
      simp
  · intro r hr j hj
    rcases List.mem_append.mp hr with hr' | hr'
    · exact hfresh r hr' j (by omega)
    · simp only [List.mem_singleton] at hr'
      subst hr'
      intro heq
      have := hinj k j heq
      omega

/-- A scan in the open phase closes the open record and moves to the closed
phase; it neither consumes a generated id nor touches the roster. -/
theorem scan_close_step (dv : String → Nat) (aid today : String)
    (recId sid : String) (t : Nat) (ts' : List Nat) (st : ScanState)
    (hinv : InvOpen aid today (t :: ts') st.records) :
    ∃ st1, handleScan_local dv st aid today t recId sid = (st1, .closed) ∧
      InvClosed aid today ts' st1.records ∧
      (∀ r ∈ st1.records, ∃ r0 ∈ st.records, r.id = r0.id) ∧
      st1.students = st.students := by
  obtain ⟨ropen, tk, hmem, haid, hdate, hstat, hci, hts, hothers, hfilter⟩ := hinv
  have hkey : recTimeKey dv ropen = (tk : Int) := by
    rw [recTimeKey, hci]
  have hmax : ∀ y ∈ (getRecordsByDate_plainLocal st.records today).filter
      (fun r => r.admissionId == aid), y = ropen ∨
      recTimeKey dv y < recTimeKey dv ropen := by
    intro y hy
    have hy' : y ∈ st.records ∧ y.admissionId = aid ∧ y.date = today := by
      have := (mem_statusPool dv st.records aid today y).mp (mem_jsSort.mpr hy)
      exact this
    by_cases hne : y = ropen
    · exact Or.inl hne
    · obtain ⟨_, u, hu, hlt⟩ := hothers y hy'.1 hy'.2.1 hy'.2.2 hne
      right
      rw [hkey]
      simp only [recTimeKey, hu]
      exact_mod_cast hlt
  have hpool : ropen ∈ (getRecordsByDate_plainLocal st.records today).filter
      (fun r => r.admissionId == aid) := by
    have := (mem_statusPool dv st.records aid today ropen).mpr ⟨hmem, haid, hdate⟩
    exact mem_jsSort.mp this
  have hhead : (jsSort (descCmp (recTimeKey dv))
      ((getRecordsByDate_plainLocal st.records today).filter
        (fun r => r.admissionId == aid))).head? = some ropen :=
    jsSort_head_of_strictMax (recTimeKey dv) ropen _ hpool hmax
  have hstatus : getStudentCurrentStatus_local dv st.records aid today =
      (true, some ropen) := by
    simp [getStudentCurrentStatus_local, hhead, hstat]
  obtain ⟨l₁, l₂, hdecomp, hl₁, hl₂, hupd⟩ :=
    updateFirst_of_filter_singleton (fun r => r.id == ropen.id)
      (fun r => r.applyPatch (closePatch ropen t)) st.records ropen hfilter
  set patched : LibraryRecord := ropen.applyPatch (closePatch ropen t) with hpatched
  have hpatchedEq : patched =
      ⟨ropen.id, ropen.admissionId, ropen.studentName, ropen.checkInTime,
       some t, ropen.date, RecStatus.checkedOut⟩ := rfl
  refine ⟨⟨l₁ ++ patched :: l₂, st.students⟩, ?_, ?_, ?_, rfl⟩
  · simp only [handleScan_local, hstatus, handleCheckOut_local, hstat,
      updateRecord_plainLocal, hupd]
    simp
  · intro r hr ha hd
    rcases List.mem_append.mp hr with hr' | hr'
    · have hrs : r ∈ st.records := by rw [hdecomp]; exact List.mem_append_left _ hr'
      have hne : r ≠ ropen := by
        intro h
        have := hl₁ r hr'
        rw [h] at this
        simp at this
      obtain ⟨hout, u, hu, hlt⟩ := hothers r hrs ha hd hne
      exact ⟨hout, u, hu, fun t' ht' => lt_trans hlt (hts t' (List.mem_cons_of_mem t ht'))⟩
    · rcases List.mem_cons.mp hr' with hr'' | hr''
      · subst hr''
        refine ⟨rfl, tk, by rw [hpatchedEq]; exact hci, ?_⟩
        intro t' ht'
        exact hts t' (List.mem_cons_of_mem t ht')
      · have hrs : r ∈ st.records := by
          rw [hdecomp]
          exact List.mem_append_right _ (List.mem_cons_of_mem _ hr'')
        have hne : r ≠ ropen := by
          intro h
          have := hl₂ r hr''
          rw [h] at this
          simp at this
        obtain ⟨hout, u, hu, hlt⟩ := hothers r hrs ha hd hne
        exact ⟨hout, u, hu, fun t' ht' => lt_trans hlt (hts t' (List.mem_cons_of_mem t ht'))⟩
  · intro r hr
    rcases List.mem_append.mp hr with hr' | hr'
    · exact ⟨r, by rw [hdecomp]; exact List.mem_append_left _ hr', rfl⟩
    · rcases List.mem_cons.mp hr' with hr'' | hr''
      · subst hr''
        exact ⟨ropen, hmem, rfl⟩
      · exact ⟨r, by rw [hdecomp]; exact List.mem_append_right _ (List.mem_cons_of_mem _ hr''), rfl⟩

/-- Main run lemma: from a phase-invariant state, a serialized scan sequence
with strictly increasing times produces the strictly alternating action
sequence and ends in a phase-invariant state. -/
theorem runScans_spec (dv : String → Nat) (aid today : String)
    (recIds sids : Nat → String) (hinj : ∀ i j, recIds i = recIds j → i = j) :
    ∀ (ts : List Nat) (k : Nat) (st : ScanState) (b : Bool),
      List.Pairwise (· < ·) ts →
      FreshRec recIds k st.records →
      StudentsInv aid st.students →
      cond b (InvOpen aid today ts st.records) (InvClosed aid today ts st.records) →
      (runScans dv aid today recIds sids st ts k).2 = altActions ts.length (!b) ∧
      FreshRec recIds (k + ts.length)
        (runScans dv aid today recIds sids st ts k).1.records ∧
      StudentsInv aid (runScans dv aid today recIds sids st ts k).1.students ∧
      (InvOpen aid today [] (runScans dv aid today recIds sids st ts k).1.records ∨
       InvClosed aid today [] (runScans dv aid today recIds sids st ts k).1.records) := by
  intro ts
  induction ts with
  | nil =>
    intro k st b _ hfresh hroster hinv
    refine ⟨rfl, by simpa using hfresh, hroster, ?_⟩
    cases b
    · exact Or.inr hinv
    · exact Or.inl hinv
  | cons t ts' ih =>
    intro k st b hts hfresh hroster hinv
    have hts' : List.Pairwise (· < ·) ts' := hts.of_cons
    have hfuture : ∀ u ∈ ts', t < u := fun u hu => List.rel_of_pairwise_cons hts hu
    cases b
    · -- closed phase: this scan opens
      obtain ⟨st1, hstep, hinv1, hfresh1, hroster1⟩ :=
        scan_open_step dv aid today recIds sids hinj k t ts' st hinv hfresh hroster hfuture
      obtain ⟨hact, hfreshF, hrosterF, hinvF⟩ :=
        ih (k + 1) st1 true hts' hfresh1 hroster1 hinv1
      rw [runScans, hstep]
      refine ⟨?_, ?_, hrosterF, hinvF⟩
      · simp only [altActions, hact]
        rfl
      · have : k + 1 + ts'.length = k + (ts'.length + 1) := by omega
        rw [this] at hfreshF
        simpa using hfreshF
    · -- open phase: this scan closes
      obtain ⟨st1, hstep, hinv1, hids, hstud⟩ :=
        scan_close_step dv aid today (recIds k) (sids k) t ts' st hinv
      have hfresh1 : FreshRec recIds (k + 1) st1.records := by
        intro r hr j hj
        obtain ⟨r0, hr0, hid⟩ := hids r hr
        rw [hid]
        exact hfresh r0 hr0 j (by omega)
      have hroster1 : StudentsInv aid st1.students := by rw [hstud]; exact hroster
      obtain ⟨hact, hfreshF, hrosterF, hinvF⟩ :=
        ih (k + 1) st1 false hts' hfresh1 hroster1 hinv1
      rw [runScans, hstep]
      refine ⟨?_, ?_, hrosterF, hinvF⟩
      · simp only [altActions, hact]
        rfl
      · have : k + 1 + ts'.length = k + (ts'.length + 1) := by omega
        rw [this] at hfreshF
        simpa using hfreshF

/-- C1: for every subject and day, for every serialized sequence of scans at
strictly increasing times, starting from a store with no attendance record of
the subject for that day (fresh generated ids, sane roster): the scan
resolver (`handleScan` over `getStudentCurrentStatus`) closes the most recent
record exactly when it is `checked-in` and opens a new one otherwise, so the
action sequence is strictly alternating — open, close, open, ... — and never
contains two consecutive opens. -/
theorem scan_alternation (dv : String → Nat) (aid today : String)
    (recIds sids : Nat → String) (hinj : ∀ i j, recIds i = recIds j → i = j)
    (st : ScanState) (ts : List Nat)
    (hts : List.Pairwise (· < ·) ts)
    (hempty : ∀ r ∈ st.records, ¬(r.admissionId = aid ∧ r.date = today))
    (hfresh : ∀ r ∈ st.records, ∀ j, ¬ r.id = recIds j)
    (hroster : StudentsInv aid st.students) :
    (runScans dv aid today recIds sids st ts 0).2 = altActions ts.length true := by
  have h := runScans_spec dv aid today recIds sids hinj ts 0 st false hts
    (fun r hr j _ => hfresh r hr j) hroster
    (fun r hr ha hd => absurd ⟨ha, hd⟩ (hempty r hr))
  exact h.1

/-- Witness for `scan_alternation`: three scans of subject S001 on an empty
store produce open, close, open. -/
theorem scan_alternation_witness :
    (runScans (fun _ => 0) "S001" "2026-01-01"
      (fun i => String.mk (List.replicate i 'r'))
      (fun i => String.mk (List.replicate i 's'))
      ⟨[], []⟩ [1, 2, 3] 0).2 = altActions 3 true :=
  scan_alternation (fun _ => 0) "S001" "2026-01-01"
    (fun i => String.mk (List.replicate i 'r'))
    (fun i => String.mk (List.replicate i 's'))
    (fun i j h => by simpa using congrArg (fun s => s.data.length) h)
    ⟨[], []⟩ [1, 2, 3] (by decide) (by simp) (by simp) (Or.inr (by simp))

/-- C2: under serialized scans of a subject from a store with no record of
the subject for the day, the attendance collection never holds two
simultaneously open (`checked-in`) records of that subject for that day — at
every prefix of the scan sequence the open count is at most one — while the
storage layer itself (`createRecord`, localStorage fallback: push) performs
no rejection whatsoever: the protection comes from the resolver decision. -/
theorem scan_at_most_one_open (dv : String → Nat) (aid today : String)
    (recIds sids : Nat → String) (hinj : ∀ i j, recIds i = recIds j → i = j)
    (st : ScanState) (ts : List Nat)
    (hts : List.Pairwise (· < ·) ts)
    (hempty : ∀ r ∈ st.records, ¬(r.admissionId = aid ∧ r.date = today))
    (hfresh : ∀ r ∈ st.records, ∀ j, ¬ r.id = recIds j)
    (hroster : StudentsInv aid st.students) :
    (∀ n, openCount aid today
      (runScans dv aid today recIds sids st (ts.take n) 0).1.records ≤ 1) ∧
    (∀ (recs : List LibraryRecord) (lid : String) (inp : RecordInput),
      (createRecord_plainLocal recs lid inp).2 = recs ++ [inp.withId lid]) := by
  constructor
  · intro n
    have hts' : List.Pairwise (· < ·) (ts.take n) :=
      List.Pairwise.sublist (List.take_sublist n ts) hts
    have h := runScans_spec dv aid today recIds sids hinj (ts.take n) 0 st false hts'
      (fun r hr j _ => hfresh r hr j) hroster
      (fun r hr ha hd => absurd ⟨ha, hd⟩ (hempty r hr))
    rcases h.2.2.2 with hop | hcl
    · exact openCount_le_one_of_invOpen _ _ _ _ hop
    · rw [openCount_zero_of_invClosed _ _ _ _ hcl]
      omega
  · intro recs lid inp
    rfl

/-- Witness for `scan_at_most_one_open`: after two of three scans of S001
from the empty store, at most one record is open, and the raw store append is
unconditional. -/
theorem scan_at_most_one_open_witness :
    openCount "S001" "2026-01-01"
      (runScans (fun _ => 0) "S001" "2026-01-01"
        (fun i => String.mk (List.replicate i 'r'))
        (fun i => String.mk (List.replicate i 's'))
        ⟨[], []⟩ ([1, 2, 3].take 2) 0).1.records ≤ 1 ∧
    (createRecord_plainLocal [] "local-0"
      ⟨"S001", "Student S001", some 1, none, "2026-01-01", RecStatus.checkedIn⟩).2 =
      [RecordInput.withId "local-0"
        ⟨"S001", "Student S001", some 1, none, "2026-01-01", RecStatus.checkedIn⟩] := by
  have h := scan_at_most_one_open (fun _ => 0) "S001" "2026-01-01"
    (fun i => String.mk (List.replicate i 'r'))
    (fun i => String.mk (List.replicate i 's'))
    (fun i j h => by simpa using congrArg (fun s => s.data.length) h)
    ⟨[], []⟩ [1, 2, 3] (by decide) (by simp) (by simp) (Or.inr (by simp))
  exact ⟨h.1 2, h.2 [] "local-0" _⟩

/-! `EnhancedAppwriteService` (source: `src/lib/appwrite-enhanced.ts`).  Its
write path mutates the local collections and the sync queue; remote calls are
outcome parameters.  Its `getLocalData`/`setLocalData` run `sortData` on both
read and write. -/

/-- Outcome of one remote `createDocument` call: a server document id, or a
thrown error.  Of the error object the source only inspects
`error.message.includes("already exists")`, tracked as `dupMsg`. -/
inductive RemoteWrite where
  | ok (serverId : String)
  | err (dupMsg : Bool)
deriving DecidableEq, Repr

/-- Outcome of one remote `updateDocument` / `deleteDocument` call: the
server response, or a thrown error. -/
inductive RemoteUpd (α : Type) where
  | ok (resp : α)
  | err
deriving DecidableEq, Repr

/-- Errors the enhanced write path can throw. -/
inductive WriteErr where
  | recordNotFound
  | studentNotFound
  | loginRecordNotFound
  | duplicateStudent (admissionId : String)
  | remote (dupMsg : Bool)
deriving DecidableEq, Repr

/-- `sortData` for the records collection (descending by
`checkInTime || date`), applied by the enhanced `getLocalData` and
`setLocalData`. -/
def sortRecords_enh (dv : String → Nat) (l : List LibraryRecord) : List LibraryRecord :=
  jsSort (descCmp (recTimeKey dv)) l

/-- `sortData` for the students collection: `localeCompare` on names is kept
abstract as a comparator `nameCmp`. -/
def sortStudents_enh (nameCmp : Student → Student → Int) (l : List Student) :
    List Student :=
  jsSort nameCmp l

/-- `sortData` for login records (descending by `loginTime`). -/
def sortLogins_enh (l : List LoginRecord) : List LoginRecord :=
  jsSort (descCmp (fun r => (r.loginTime : Int))) l

/-- Enhanced `getRecordsByDate`: remote `Query.equal(date)` result when
configured and online (`remoteRead = some docs`), local filter otherwise. -/
def getRecordsByDate_enh (dv : String → Nat) (cfgOnline : Bool)
    (remoteRead : Option (List LibraryRecord)) (locals : List LibraryRecord)
    (date : String) : List LibraryRecord :=
  if cfgOnline then
    match remoteRead with
    | some docs => docs
    | none => (sortRecords_enh dv locals).filter (fun r => r.date == date)
  else (sortRecords_enh dv locals).filter (fun r => r.date == date)

/-- Enhanced `createRecord`: duplicate check over the day's records, local
append under a generated id, then one best-effort remote create — success
rewrites the local id to the server id, failure or offline enqueues a
`create records` item.  The function never throws. -/
def createRecord_enh (dv : String → Nat) (cfgOnline : Bool)
    (remoteRead : Option (List LibraryRecord)) (rw : RemoteWrite)
    (localId qid : String) (qts : Nat) (locals : List LibraryRecord)
    (queue : List SyncQueueItem) (record : RecordInput) :
    LibraryRecord × List LibraryRecord × List SyncQueueItem :=
  let existingRecords := getRecordsByDate_enh dv cfgOnline remoteRead locals record.date
  match existingRecords.find? (fun r =>
      r.admissionId == record.admissionId && r.date == record.date &&
      r.status == record.status) with
  | some duplicateRecord => (duplicateRecord, locals, queue)
  | none =>
    let newRecord := record.withId localId
    let records := sortRecords_enh dv locals ++ [newRecord]
    if cfgOnline then
      match rw with
      | .ok sid =>
        let updatedRecords :=
          records.map (fun r => if r.id == localId then { r with id := sid } else r)
        (record.withId sid, sortRecords_enh dv updatedRecords, queue)
      | .err _ =>
        (newRecord, sortRecords_enh dv records,
         queue ++ [⟨qid, .recordCreate record, qts, 0, some localId⟩])
    else
      (newRecord, sortRecords_enh dv records,
       queue ++ [⟨qid, .recordCreate record, qts, 0, some localId⟩])

/-- Enhanced `updateRecord`: local merge first (`throw` when the id is
absent), then one best-effort remote update unless the id is still a
temporary `local-` id; failure or offline enqueues an `update records`
item. -/
def updateRecord_enh (dv : String → Nat) (cfgOnline : Bool)
    (ru : RemoteUpd LibraryRecord) (qid : String) (qts : Nat)
    (locals : List LibraryRecord) (queue : List SyncQueueItem)
    (recordId : String) (updates : RecordPatch) :
    Except WriteErr LibraryRecord × List LibraryRecord × List SyncQueueItem :=
  let records := sortRecords_enh dv locals
  match updateFirst (fun r => r.id == recordId) (fun r => r.applyPatch updates) records with
  | none => (.error .recordNotFound, locals, queue)
  | some (records1, merged) =>
    let locals1 := sortRecords_enh dv records1
    if cfgOnline && !recordId.startsWith "local-" then
      match ru with
      | .ok resp => (.ok resp, locals1, queue)
      | .err =>
        (.ok merged, locals1, queue ++ [⟨qid, .recordUpdate recordId updates, qts, 0, none⟩])
    else
      (.ok merged, locals1, queue ++ [⟨qid, .recordUpdate recordId updates, qts, 0, none⟩])

/-- Enhanced `deleteRecord`: local filter (with no absence check), then one
best-effort remote delete unless the id is a `local-` id; failure or offline
enqueues a `delete records` item.  The call always succeeds. -/
def deleteRecord_enh (dv : String → Nat) (cfgOnline : Bool) (rd : RemoteUpd Unit)
    (qid : String) (qts : Nat) (locals : List LibraryRecord)
    (queue : List SyncQueueItem) (recordId : String) :
    Except WriteErr Unit × List LibraryRecord × List SyncQueueItem :=
  let records := sortRecords_enh dv locals
  let filteredRecords := records.filter (fun r => !(r.id == recordId))
  let locals1 := sortRecords_enh dv filteredRecords
  if cfgOnline && !recordId.startsWith "local-" then
    match rd with
    | .ok _ => (.ok (), locals1, queue)
    | .err => (.ok (), locals1, queue ++ [⟨qid, .recordDelete recordId, qts, 0, none⟩])
  else (.ok (), locals1, queue ++ [⟨qid, .recordDelete recordId, qts, 0, none⟩])

/-- Enhanced `updateStudent` (same shape as `updateRecord`). -/
def updateStudent_enh (nameCmp : Student → Student → Int) (cfgOnline : Bool)
    (ru : RemoteUpd Student) (qid : String) (qts : Nat) (students : List Student)
    (queue : List SyncQueueItem) (studentId : String) (updates : StudentPatch) :
    Except WriteErr Student × List Student × List SyncQueueItem :=
  let studs := sortStudents_enh nameCmp students
  match updateFirst (fun s => s.id == studentId) (fun s => s.applyPatch updates) studs with
  | none => (.error .studentNotFound, students, queue)
  | some (studs1, merged) =>
    let students1 := sortStudents_enh nameCmp studs1
    if cfgOnline && !studentId.startsWith "local-" then
      match ru with
      | .ok resp => (.ok resp, students1, queue)
      | .err =>
        (.ok merged, students1,
         queue ++ [⟨qid, .studentUpdate studentId updates, qts, 0, none⟩])
    else
      (.ok merged, students1,
       queue ++ [⟨qid, .studentUpdate studentId updates, qts, 0, none⟩])

/-- Enhanced `deleteStudent` (same shape as `deleteRecord`). -/
def deleteStudent_enh (nameCmp : Student → Student → Int) (cfgOnline : Bool)
    (rd : RemoteUpd Unit) (qid : String) (qts : Nat) (students : List Student)
    (queue : List SyncQueueItem) (studentId : String) :
    Except WriteErr Unit × List Student × List SyncQueueItem :=
  let studs := sortStudents_enh nameCmp students
  let filteredStudents := studs.filter (fun s => !(s.id == studentId))
  let students1 := sortStudents_enh nameCmp filteredStudents
  if cfgOnline && !studentId.startsWith "local-" then
    match rd with
    | .ok _ => (.ok (), students1, queue)
    | .err => (.ok (), students1, queue ++ [⟨qid, .studentDelete studentId, qts, 0, none⟩])
  else (.ok (), students1, queue ++ [⟨qid, .studentDelete studentId, qts, 0, none⟩])

/-- Enhanced `createLoginRecord`: local append under a generated id, then one
best-effort remote create — success rewrites the local id, failure or offline
enqueues a `create login-records` item carrying no local id. -/
def createLoginRecord_enh (cfgOnline : Bool) (rw : RemoteWrite)
    (localId qid : String) (qts : Nat) (logins : List LoginRecord)
    (queue : List SyncQueueItem) (loginRecord : LoginInput) :
    LoginRecord × List LoginRecord × List SyncQueueItem :=
  let newRecord := loginRecord.withId localId
  let records := sortLogins_enh logins ++ [newRecord]
  if cfgOnline then
    match rw with
    | .ok sid =>
      let updatedRecords :=
        records.map (fun r => if r.id == localId then { r with id := sid } else r)
      (loginRecord.withId sid, sortLogins_enh updatedRecords, queue)
    | .err _ =>
      (newRecord, sortLogins_enh records,
       queue ++ [⟨qid, .loginCreate loginRecord, qts, 0, none⟩])
  else
    (newRecord, sortLogins_enh records,
     queue ++ [⟨qid, .loginCreate loginRecord, qts, 0, none⟩])

/-- Enhanced `updateLoginRecord` (same shape as `updateRecord`). -/
def updateLoginRecord_enh (cfgOnline : Bool) (ru : RemoteUpd LoginRecord)
    (qid : String) (qts : Nat) (logins : List LoginRecord)
    (queue : List SyncQueueItem) (recordId : String) (updates : LoginPatch) :
    Except WriteErr LoginRecord × List LoginRecord × List SyncQueueItem :=
  let records := sortLogins_enh logins
  match updateFirst (fun r => r.id == recordId) (fun r => r.applyPatch updates) records with
  | none => (.error .loginRecordNotFound, logins, queue)
  | some (records1, merged) =>
    let logins1 := sortLogins_enh records1
    if cfgOnline && !recordId.startsWith "local-" then
      match ru with
      | .ok resp => (.ok resp, logins1, queue)
      | .err =>
        (.ok merged, logins1, queue ++ [⟨qid, .loginUpdate recordId updates, qts, 0, none⟩])
    else
      (.ok merged, logins1, queue ++ [⟨qid, .loginUpdate recordId updates, qts, 0, none⟩])

/-! The mutually recursive pair `getStudentByAdmissionId` / `createStudent`
of the enhanced service, indexed by fuel (`none` = the recursion exceeded the
fuel, i.e. the call has not returned at that depth). -/

/-- Ambient parameters of the enhanced student path.  The generated local id,
queue-item id and remote outcomes are constant across recursion depths; this
is harmless because (as proved below) the create body after the pre-check is
never reached. -/
structure EnhStudentEnv where
  cfgOnline : Bool
  remoteStudents : Option (List Student)
  rw : RemoteWrite
  localId : String
  qid : String
  qts : Nat
  nameCmp : Student → Student → Int

/-- The local state the enhanced student path mutates. -/
structure EnhStudentState where
  students : List Student
  queue : List SyncQueueItem

/-- Lines 265-310 of `createStudent`: local append, then one best-effort
remote create; a remote "already exists" error removes the local copy again
and is re-thrown, any other failure or offline enqueues a `create students`
item. -/
def createStudentBody (E : EnhStudentEnv) (st : EnhStudentState) (stu : StudentInput) :
    Except WriteErr Student × EnhStudentState :=
  let newStudent := stu.withId E.localId
  let students := sortStudents_enh E.nameCmp st.students ++ [newStudent]
  if E.cfgOnline then
    match E.rw with
    | .ok sid =>
      let updatedStudents :=
        students.map (fun s => if s.id == E.localId then { s with id := sid } else s)
      (.ok (stu.withId sid), ⟨sortStudents_enh E.nameCmp updatedStudents, st.queue⟩)
    | .err dupMsg =>
      if dupMsg then
        (.error (.remote true),
         ⟨sortStudents_enh E.nameCmp (students.filter (fun s => !(s.id == E.localId))),
          st.queue⟩)
      else
        (.ok newStudent,
         ⟨sortStudents_enh E.nameCmp students,
          st.queue ++ [⟨E.qid, .studentCreate stu, E.qts, 0, some E.localId⟩]⟩)
  else
    (.ok newStudent,
     ⟨sortStudents_enh E.nameCmp students,
      st.queue ++ [⟨E.qid, .studentCreate stu, E.qts, 0, some E.localId⟩]⟩)

/-- The remote branch of the enhanced `getStudentByAdmissionId`: a hit on the
exact `Query.equal("admissionId", ...)` when configured and online; an empty
result or a thrown query error both fall through (`none`). -/
def remoteStudentFind (E : EnhStudentEnv) (aid : String) : Option Student :=
  if E.cfgOnline then
    match E.remoteStudents with
    | some l => l.find? (fun s => s.admissionId == aid)
    | none => none
  else none

mutual

/-- Enhanced `getStudentByAdmissionId`: remote exact query when configured
and online (errors fall through), then local lookup, then lazy creation via
`createStudent` — whose own duplicate pre-check calls back here. -/
def getStudentByAdmissionId_enh : Nat → EnhStudentEnv → EnhStudentState → String →
    Option (Except WriteErr (Option Student) × EnhStudentState)
  | 0, _, _, _ => none
  | fuel + 1, E, st, aid =>
    match remoteStudentFind E aid with
    | some s => some (.ok (some s), st)
    | none =>
      match (sortStudents_enh E.nameCmp st.students).find?
          (fun s => s.admissionId == aid) with
      | some s => some (.ok (some s), st)
      | none =>
        match createStudent_enh fuel E st ⟨aid, "Student " ++ aid, none, none⟩ with
        | none => none
        | some (.error e, st1) => some (.error e, st1)
        | some (.ok s, st1) => some (.ok (some s), st1)

/-- Enhanced `createStudent`: duplicate pre-check through
`getStudentByAdmissionId`, then the create body. -/
def createStudent_enh : Nat → EnhStudentEnv → EnhStudentState → StudentInput →
    Option (Except WriteErr Student × EnhStudentState)
  | 0, _, _, _ => none
  | fuel + 1, E, st, stu =>
    match getStudentByAdmissionId_enh fuel E st stu.admissionId with
    | none => none
    | some (.error e, st1) => some (.error e, st1)
    | some (.ok (some _), st1) => some (.error (.duplicateStudent stu.admissionId), st1)
    | some (.ok none, st1) => some (createStudentBody E st1 stu)

end

/-- The enhanced `getStudentByAdmissionId` never resolves to `null`: every
return path yields a student. -/
theorem getStudent_enh_never_none (fuel : Nat) (E : EnhStudentEnv)
    (st : EnhStudentState) (aid : String) (v : Option Student) (st1 : EnhStudentState)
    (h : getStudentByAdmissionId_enh fuel E st aid = some (.ok v, st1)) :
    v.isSome := by
  cases fuel with
  | zero => simp [getStudentByAdmissionId_enh] at h
  | succ n =>
    rw [getStudentByAdmissionId_enh] at h
    split at h
    · simp only [Option.some.injEq, Prod.mk.injEq, Except.ok.injEq] at h
      rw [← h.1]
      rfl
    · split at h
      · simp only [Option.some.injEq, Prod.mk.injEq, Except.ok.injEq] at h
        rw [← h.1]
        rfl
      · split at h
        · exact absurd h (by simp)
        · exact absurd h (by simp)
        · simp only [Option.some.injEq, Prod.mk.injEq, Except.ok.injEq] at h
          rw [← h.1]
          rfl

/-- The enhanced `createStudent` never returns a created student: its
duplicate pre-check either reports an existing entry or does not return. -/
theorem createStudent_enh_no_ok (fuel : Nat) (E : EnhStudentEnv)
    (st : EnhStudentState) (stu : StudentInput) (s : Student) (st1 : EnhStudentState)
    (h : createStudent_enh fuel E st stu = some (.ok s, st1)) : False := by
  cases fuel with
  | zero => simp [createStudent_enh] at h
  | succ n =>
    rw [createStudent_enh] at h
    split at h
    · exact absurd h (by simp)
    · exact absurd h (by simp)
    · exact absurd h (by simp)
    · rename_i st2 hG
      have := getStudent_enh_never_none n E st stu.admissionId none st2 hG
      simp at this

/-- Every error the pair surfaces is the local duplicate validation error:
in particular no remote-store error (`WriteErr.remote`) ever propagates out
of the enhanced `createStudent`. -/
theorem studentPath_err_characterization :
    ∀ fuel : Nat,
      (∀ E st aid e st1,
        getStudentByAdmissionId_enh fuel E st aid = some (.error e, st1) →
        ∃ a, e = WriteErr.duplicateStudent a) ∧
      (∀ E st stu e st1,
        createStudent_enh fuel E st stu = some (.error e, st1) →
        ∃ a, e = WriteErr.duplicateStudent a) := by
  intro fuel
  induction fuel with
  | zero =>
    constructor
    · intro E st aid e st1 h
      simp [getStudentByAdmissionId_enh] at h
    · intro E st stu e st1 h
      simp [createStudent_enh] at h
  | succ n ih =>
    constructor
    · intro E st aid e st1 h
      rw [getStudentByAdmissionId_enh] at h
      split at h
      · exact absurd h (by simp)
      · split at h
        · exact absurd h (by simp)
        · split at h
          · exact absurd h (by simp)
          · rename_i e' st2 hC
            simp only [Option.some.injEq, Prod.mk.injEq, Except.error.injEq] at h
            obtain ⟨a, ha⟩ := ih.2 E st _ e' st2 hC
            exact ⟨a, by rw [← h.1, ha]⟩
          · exact absurd h (by simp)
    · intro E st stu e st1 h
      rw [createStudent_enh] at h
      split at h
      · exact absurd h (by simp)
      · rename_i e' st2 hG
        simp only [Option.some.injEq, Prod.mk.injEq, Except.error.injEq] at h
        obtain ⟨a, ha⟩ := ih.1 E st stu.admissionId e' st2 hG
        exact ⟨a, by rw [← h.1, ha]⟩
      · simp only [Option.some.injEq, Prod.mk.injEq, Except.error.injEq] at h
        exact ⟨stu.admissionId, h.1.symm⟩
      · rename_i st2 hG
        have := getStudent_enh_never_none n E st stu.admissionId none st2 hG
        simp at this

/-- When the subject is absent from both the remote roster and the local
roster, the mutual recursion of the enhanced `getStudentByAdmissionId` and
`createStudent` never reaches a base case: no fuel suffices. -/
theorem studentPath_diverges (E : EnhStudentEnv) (st : EnhStudentState) (aid : String)
    (hremote : remoteStudentFind E aid = none)
    (hlocal : (sortStudents_enh E.nameCmp st.students).find?
      (fun s => s.admissionId == aid) = none) :
    ∀ fuel, getStudentByAdmissionId_enh fuel E st aid = none ∧
      createStudent_enh fuel E st ⟨aid, "Student " ++ aid, none, none⟩ = none := by
  intro fuel
  induction fuel with
  | zero => exact ⟨rfl, rfl⟩
  | succ n ih =>
    constructor
    · rw [getStudentByAdmissionId_enh, hremote, hlocal, ih.2]
    · rw [createStudent_enh]
      simp only
      rw [ih.1]

/-- C10: at the failing input — service unconfigured, empty remote and local
rosters, admission id S001 — `getStudentByAdmissionId` does not return at any
recursion depth: its lazily-create branch calls `createStudent`, whose
duplicate pre-check calls `getStudentByAdmissionId` again, and the mutual
recursion reaches no base case. -/
theorem getStudentByAdmissionId_enh_no_base_case :
    ∀ fuel, getStudentByAdmissionId_enh fuel
      ⟨false, some [], .ok "srv-1", "local-0", "sync-0", 0, fun _ _ => 0⟩
      ⟨[], []⟩ "S001" = none := by
  intro fuel
  exact (studentPath_diverges _ _ _ (by rfl) (by rfl) fuel).1

/-- C7: across the mutating write path of the enhanced service, a failing
remote call is absorbed by enqueuing a sync item while the call returns the
locally-applied result as success: for `createRecord`, `updateRecord`,
`deleteRecord`, `updateStudent`, `deleteStudent`, `createLoginRecord` and
`updateLoginRecord` this is the stated equation, and `createStudent` can
only ever surface its local duplicate validation error — never a remote
error. -/
theorem write_path_absorbs_remote_errors :
    (∀ (dv : String → Nat) (remoteRead : Option (List LibraryRecord)) (d : Bool)
        (localId qid : String) (qts : Nat) (locals : List LibraryRecord)
        (queue : List SyncQueueItem) (record : RecordInput),
      (getRecordsByDate_enh dv true remoteRead locals record.date).find? (fun r =>
        r.admissionId == record.admissionId && r.date == record.date &&
        r.status == record.status) = none →
      createRecord_enh dv true remoteRead (.err d) localId qid qts locals queue record =
        (record.withId localId,
         sortRecords_enh dv (sortRecords_enh dv locals ++ [record.withId localId]),
         queue ++ [⟨qid, .recordCreate record, qts, 0, some localId⟩])) ∧
    (∀ (dv : String → Nat) (cfgOnline : Bool) (qid : String) (qts : Nat)
        (locals : List LibraryRecord) (queue : List SyncQueueItem)
        (recordId : String) (updates : RecordPatch) (l1 : List LibraryRecord)
        (merged : LibraryRecord),
      updateFirst (fun r => r.id == recordId) (fun r => r.applyPatch updates)
        (sortRecords_enh dv locals) = some (l1, merged) →
      updateRecord_enh dv cfgOnline .err qid qts locals queue recordId updates =
        (.ok merged, sortRecords_enh dv l1,
         queue ++ [⟨qid, .recordUpdate recordId updates, qts, 0, none⟩])) ∧
    (∀ (dv : String → Nat) (cfgOnline : Bool) (qid : String) (qts : Nat)
        (locals : List LibraryRecord) (queue : List SyncQueueItem) (recordId : String),
      deleteRecord_enh dv cfgOnline .err qid qts locals queue recordId =
        (.ok (), sortRecords_enh dv
          ((sortRecords_enh dv locals).filter (fun r => !(r.id == recordId))),
         queue ++ [⟨qid, .recordDelete recordId, qts, 0, none⟩])) ∧
    (∀ (fuel : Nat) (E : EnhStudentEnv) (st : EnhStudentState) (stu : StudentInput)
        (res : Except WriteErr Student) (st1 : EnhStudentState),
      createStudent_enh fuel E st stu = some (res, st1) →
      ∃ a, res = .error (.duplicateStudent a)) ∧
    (∀ (nameCmp : Student → Student → Int) (cfgOnline : Bool) (qid : String)
        (qts : Nat) (students : List Student) (queue : List SyncQueueItem)
        (studentId : String) (updates : StudentPatch) (l1 : List Student)
        (merged : Student),
      updateFirst (fun s => s.id == studentId) (fun s => s.applyPatch updates)
        (sortStudents_enh nameCmp students) = some (l1, merged) →
      updateStudent_enh nameCmp cfgOnline .err qid qts students queue studentId updates =
        (.ok merged, sortStudents_enh nameCmp l1,
         queue ++ [⟨qid, .studentUpdate studentId updates, qts, 0, none⟩])) ∧
    (∀ (nameCmp : Student → Student → Int) (cfgOnline : Bool) (qid : String)
        (qts : Nat) (students : List Student) (queue : List SyncQueueItem)
        (studentId : String),
      deleteStudent_enh nameCmp cfgOnline .err qid qts students queue studentId =
        (.ok (), sortStudents_enh nameCmp
          ((sortStudents_enh nameCmp students).filter (fun s => !(s.id == studentId))),
         queue ++ [⟨qid, .studentDelete studentId, qts, 0, none⟩])) ∧
    (∀ (cfgOnline : Bool) (d : Bool) (localId qid : String) (qts : Nat)
        (logins : List LoginRecord) (queue : List SyncQueueItem) (lr : LoginInput),
      createLoginRecord_enh cfgOnline (.err d) localId qid qts logins queue lr =
        (lr.withId localId, sortLogins_enh (sortLogins_enh logins ++ [lr.withId localId]),
         queue ++ [⟨qid, .loginCreate lr, qts, 0, none⟩])) ∧
    (∀ (cfgOnline : Bool) (qid : String) (qts : Nat) (logins : List LoginRecord)
        (queue : List SyncQueueItem) (recordId : String) (updates : LoginPatch)
        (l1 : List LoginRecord) (merged : LoginRecord),
      updateFirst (fun r => r.id == recordId) (fun r => r.applyPatch updates)
        (sortLogins_enh logins) = some (l1, merged) →
      updateLoginRecord_enh cfgOnline .err qid qts logins queue recordId updates =
        (.ok merged, sortLogins_enh l1,
         queue ++ [⟨qid, .loginUpdate recordId updates, qts, 0, none⟩])) := by
  refine ⟨?_, ?_, ?_, ?_, ?_, ?_, ?_, ?_⟩
  · intro dv remoteRead d localId qid qts locals queue record hdup
    rw [createRecord_enh]
    simp only [hdup]
    split <;> rfl
  · intro dv cfgOnline qid qts locals queue recordId updates l1 merged hupd
    rw [updateRecord_enh]
    simp only [hupd]
    split <;> rfl
  · intro dv cfgOnline qid qts locals queue recordId
    rw [deleteRecord_enh]
    split <;> rfl
  · intro fuel E st stu res st1 h
    cases res with
    | ok s => exact absurd h (fun h => createStudent_enh_no_ok fuel E st stu s st1 h)
    | error e =>
      obtain ⟨a, ha⟩ := (studentPath_err_characterization fuel).2 E st stu e st1 h
      exact ⟨a, by rw [ha]⟩
  · intro nameCmp cfgOnline qid qts students queue studentId updates l1 merged hupd
    rw [updateStudent_enh]
    simp only [hupd]
    split <;> rfl
  · intro nameCmp cfgOnline qid qts students queue studentId
    rw [deleteStudent_enh]
    split <;> rfl
  · intro cfgOnline d localId qid qts logins queue lr
    rw [createLoginRecord_enh]
    split <;> rfl
  · intro cfgOnline qid qts logins queue recordId updates l1 merged hupd
    rw [updateLoginRecord_enh]
    simp only [hupd]
    split <;> rfl

/-- Witness for `write_path_absorbs_remote_errors`: concrete failing-remote
calls of each write-path operation return the optimistic local result and
enqueue one sync item. -/
theorem write_path_absorbs_remote_errors_witness :
    (createRecord_enh (fun _ => 0) true (some []) (.err false) "local-1" "q1" 0 [] []
        ⟨"S001", "Student S001", some 5, none, "2026-01-01", RecStatus.checkedIn⟩).2.2 =
      [⟨"q1", .recordCreate ⟨"S001", "Student S001", some 5, none, "2026-01-01",
        RecStatus.checkedIn⟩, 0, 0, some "local-1"⟩] ∧
    (updateRecord_enh (fun _ => 0) true .err "q2" 0
        [⟨"r1", "S001", "Student S001", some 5, none, "2026-01-01", RecStatus.checkedIn⟩]
        [] "r1" (closePatch ⟨"r1", "S001", "Student S001", some 5, none, "2026-01-01",
          RecStatus.checkedIn⟩ 7)).1 =
      .ok ⟨"r1", "S001", "Student S001", some 5, some 7, "2026-01-01",
        RecStatus.checkedOut⟩ ∧
    (deleteRecord_enh (fun _ => 0) true .err "q3" 0
        [⟨"r1", "S001", "Student S001", some 5, none, "2026-01-01", RecStatus.checkedIn⟩]
        [] "r1").1 = .ok () ∧
    (∃ a, (Except.error (WriteErr.duplicateStudent "S001") : Except WriteErr Student) =
      .error (.duplicateStudent a)) ∧
    (updateStudent_enh (fun _ _ => 0) true .err "q4" 0
        [⟨"s1", "S001", "Student S001", none, none⟩] [] "s1"
        ⟨some "s1", some "S001", some "Renamed", some none, some none⟩).1 =
      .ok ⟨"s1", "S001", "Renamed", none, none⟩ ∧
    (deleteStudent_enh (fun _ _ => 0) true .err "q5" 0
        [⟨"s1", "S001", "Student S001", none, none⟩] [] "s1").1 = .ok () ∧
    (createLoginRecord_enh true (.err false) "local-2" "q6" 0 [] []
        ⟨"T1", "Staff One", "staff", 3, none, none⟩).2.2 =
      [⟨"q6", .loginCreate ⟨"T1", "Staff One", "staff", 3, none, none⟩, 0, 0, none⟩] ∧
    (updateLoginRecord_enh true .err "q7" 0
        [⟨"g1", "T1", "Staff One", "staff", 3, none, none⟩] [] "g1"
        ⟨some "g1", some "T1", some "Staff One", some "staff", some 3, some (some 9),
         some none⟩).1 =
      .ok ⟨"g1", "T1", "Staff One", "staff", 3, some 9, none⟩ := by
  obtain ⟨h1, h2, h3, h4, h5, h6, h7, h8⟩ := write_path_absorbs_remote_errors
  refine ⟨?_, ?_, ?_, ?_, ?_, ?_, ?_, ?_⟩
  · exact congrArg (fun x => x.2.2) (h1 (fun _ => 0) (some []) false "local-1" "q1" 0 [] []
      ⟨"S001", "Student S001", some 5, none, "2026-01-01", RecStatus.checkedIn⟩ rfl)
  · exact congrArg (fun x => x.1) (h2 (fun _ => 0) true "q2" 0
      [⟨"r1", "S001", "Student S001", some 5, none, "2026-01-01", RecStatus.checkedIn⟩]
      [] "r1" (closePatch ⟨"r1", "S001", "Student S001", some 5, none, "2026-01-01",
        RecStatus.checkedIn⟩ 7) _ _ rfl)
  · exact congrArg (fun x => x.1) (h3 (fun _ => 0) true "q3" 0
      [⟨"r1", "S001", "Student S001", some 5, none, "2026-01-01", RecStatus.checkedIn⟩]
      [] "r1")
  · exact h4 2 ⟨false, some [], .ok "x", "l1", "g1", 0, fun _ _ => 0⟩
      ⟨[⟨"s1", "S001", "Student S001", none, none⟩], []⟩
      ⟨"S001", "Student S001", none, none⟩ _ _ rfl
  · exact congrArg (fun x => x.1) (h5 (fun _ _ => 0) true "q4" 0
      [⟨"s1", "S001", "Student S001", none, none⟩] [] "s1"
      ⟨some "s1", some "S001", some "Renamed", some none, some none⟩ _ _ rfl)
  · exact congrArg (fun x => x.1) (h6 (fun _ _ => 0) true "q5" 0
      [⟨"s1", "S001", "Student S001", none, none⟩] [] "s1")
  · exact congrArg (fun x => x.2.2) (h7 true false "local-2" "q6" 0 [] []
      ⟨"T1", "Staff One", "staff", 3, none, none⟩)
  · exact congrArg (fun x => x.1) (h8 true "q7" 0
      [⟨"g1", "T1", "Staff One", "staff", 3, none, none⟩] [] "g1"
      ⟨some "g1", some "T1", some "Staff One", some "staff", some 3, some (some 9),
       some none⟩ _ _ rfl)

/-- C8 counterexample: deleting a record id absent from local storage is not
surfaced as a not-found failure — `deleteRecord` returns success on an empty
store. -/
theorem deleteRecord_missing_id_no_failure :
    (deleteRecord_enh (fun _ => 0) false .err "q1" 0 [] [] "missing").1 = .ok () ∧
    ¬ (deleteRecord_enh (fun _ => 0) false .err "q1" 0 [] [] "missing").1 =
        .error WriteErr.recordNotFound := by
  exact ⟨rfl, by simp [deleteRecord_enh]⟩

/-- C8 amended: the updates (`updateRecord`, `updateStudent`,
`updateLoginRecord`) fail as terminal not-found errors on a missing id,
leaving the local collection unchanged; the deletes (`deleteRecord`,
`deleteStudent`) never fail: on a missing id they return success and leave
the collection unchanged up to the re-sort the write path applies, and they
enqueue a remote delete exactly when the remote attempt is skipped (offline,
unconfigured, or a temporary `local-` id) or fails — an online delete of a
non-local id whose remote call succeeds enqueues nothing. -/
theorem missing_id_behavior :
    (∀ (dv : String → Nat) (cfgOnline : Bool) (ru : RemoteUpd LibraryRecord)
        (qid : String) (qts : Nat) (locals : List LibraryRecord)
        (queue : List SyncQueueItem) (recordId : String) (updates : RecordPatch),
      updateFirst (fun r => r.id == recordId) (fun r => r.applyPatch updates)
        (sortRecords_enh dv locals) = none →
      updateRecord_enh dv cfgOnline ru qid qts locals queue recordId updates =
        (.error .recordNotFound, locals, queue)) ∧
    (∀ (nameCmp : Student → Student → Int) (cfgOnline : Bool) (ru : RemoteUpd Student)
        (qid : String) (qts : Nat) (students : List Student)
        (queue : List SyncQueueItem) (studentId : String) (updates : StudentPatch),
      updateFirst (fun s => s.id == studentId) (fun s => s.applyPatch updates)
        (sortStudents_enh nameCmp students) = none →
      updateStudent_enh nameCmp cfgOnline ru qid qts students queue studentId updates =
        (.error .studentNotFound, students, queue)) ∧
    (∀ (cfgOnline : Bool) (ru : RemoteUpd LoginRecord) (qid : String) (qts : Nat)
        (logins : List LoginRecord) (queue : List SyncQueueItem) (recordId : String)
        (updates : LoginPatch),
      updateFirst (fun r => r.id == recordId) (fun r => r.applyPatch updates)
        (sortLogins_enh logins) = none →
      updateLoginRecord_enh cfgOnline ru qid qts logins queue recordId updates =
        (.error .loginRecordNotFound, logins, queue)) ∧
    (∀ (dv : String → Nat) (cfgOnline : Bool) (rd : RemoteUpd Unit) (qid : String)
        (qts : Nat) (locals : List LibraryRecord) (queue : List SyncQueueItem)
        (recordId : String),
      (∀ r ∈ locals, ¬ r.id = recordId) →
      (deleteRecord_enh dv cfgOnline rd qid qts locals queue recordId).1 = .ok () ∧
      List.Perm (deleteRecord_enh dv cfgOnline rd qid qts locals queue recordId).2.1
        locals ∧
      ((cfgOnline && !recordId.startsWith "local-") = true → rd = .ok () →
        (deleteRecord_enh dv cfgOnline rd qid qts locals queue recordId).2.2 = queue) ∧
      (¬((cfgOnline && !recordId.startsWith "local-") = true ∧ rd = RemoteUpd.ok ()) →
        (deleteRecord_enh dv cfgOnline rd qid qts locals queue recordId).2.2 =
          queue ++ [⟨qid, .recordDelete recordId, qts, 0, none⟩])) ∧
    (∀ (nameCmp : Student → Student → Int) (cfgOnline : Bool) (rd : RemoteUpd Unit)
        (qid : String) (qts : Nat) (students : List Student)
        (queue : List SyncQueueItem) (studentId : String),
      (∀ s ∈ students, ¬ s.id = studentId) →
      (deleteStudent_enh nameCmp cfgOnline rd qid qts students queue studentId).1 =
        .ok () ∧
      List.Perm
        (deleteStudent_enh nameCmp cfgOnline rd qid qts students queue studentId).2.1
        students ∧
      ((cfgOnline && !studentId.startsWith "local-") = true → rd = .ok () →
        (deleteStudent_enh nameCmp cfgOnline rd qid qts students queue studentId).2.2 =
          queue) ∧
      (¬((cfgOnline && !studentId.startsWith "local-") = true ∧ rd = RemoteUpd.ok ()) →
        (deleteStudent_enh nameCmp cfgOnline rd qid qts students queue studentId).2.2 =
          queue ++ [⟨qid, .studentDelete studentId, qts, 0, none⟩])) := by
  refine ⟨?_, ?_, ?_, ?_, ?_⟩
  · intro dv cfgOnline ru qid qts locals queue recordId updates hnone
    rw [updateRecord_enh]
    simp only [hnone]
  · intro nameCmp cfgOnline ru qid qts students queue studentId updates hnone
    rw [updateStudent_enh]
    simp only [hnone]
  · intro cfgOnline ru qid qts logins queue recordId updates hnone
    rw [updateLoginRecord_enh]
    simp only [hnone]
  · intro dv cfgOnline rd qid qts locals queue recordId habsent
    have hfilter : (sortRecords_enh dv locals).filter (fun r => !(r.id == recordId)) =
        sortRecords_enh dv locals := by
      rw [List.filter_eq_self]
      intro r hr
      have : r ∈ locals := (jsSort_perm _ _).mem_iff.mp hr
      simpa using habsent r this
    refine ⟨?_, ?_, ?_, ?_⟩
    · simp only [deleteRecord_enh]
      split <;> cases rd <;> rfl
    · have hres :
          (deleteRecord_enh dv cfgOnline rd qid qts locals queue recordId).2.1 =
          sortRecords_enh dv ((sortRecords_enh dv locals).filter
            (fun r => !(r.id == recordId))) := by
        simp only [deleteRecord_enh]
        split <;> cases rd <;> rfl
      rw [hres, hfilter]
      exact (jsSort_perm _ _).trans (jsSort_perm _ _)
    · intro hcond hok
      subst hok
      simp [deleteRecord_enh, hcond]
    · intro hn
      by_cases hcond : (cfgOnline && !recordId.startsWith "local-") = true
      · cases rd with
        | ok u =>
          cases u
          exact absurd ⟨hcond, rfl⟩ hn
        | err => simp [deleteRecord_enh, hcond]
      · have hf : (cfgOnline && !recordId.startsWith "local-") = false :=
          Bool.eq_false_iff.mpr hcond
        simp [deleteRecord_enh, hf]
  · intro nameCmp cfgOnline rd qid qts students queue studentId habsent
    have hfilter : (sortStudents_enh nameCmp students).filter
        (fun s => !(s.id == studentId)) = sortStudents_enh nameCmp students := by
      rw [List.filter_eq_self]
      intro s hs
      have : s ∈ students := (jsSort_perm _ _).mem_iff.mp hs
      simpa using habsent s this
    refine ⟨?_, ?_, ?_, ?_⟩
    · simp only [deleteStudent_enh]
      split <;> cases rd <;> rfl
    · have hres :
          (deleteStudent_enh nameCmp cfgOnline rd qid qts students queue studentId).2.1 =
          sortStudents_enh nameCmp ((sortStudents_enh nameCmp students).filter
            (fun s => !(s.id == studentId))) := by
        simp only [deleteStudent_enh]
        split <;> cases rd <;> rfl
      rw [hres, hfilter]
      exact (jsSort_perm _ _).trans (jsSort_perm _ _)
    · intro hcond hok
      subst hok
      simp [deleteStudent_enh, hcond]
    · intro hn
      by_cases hcond : (cfgOnline && !studentId.startsWith "local-") = true
      · cases rd with
        | ok u =>
          cases u
          exact absurd ⟨hcond, rfl⟩ hn
        | err => simp [deleteStudent_enh, hcond]
      · have hf : (cfgOnline && !studentId.startsWith "local-") = false :=
          Bool.eq_false_iff.mpr hcond
        simp [deleteStudent_enh, hf]

/-- Witness for `missing_id_behavior` on concrete one-element stores and a
missing id; the deletes report success and — their remote attempt failing
here — enqueue the remote delete. -/
theorem missing_id_behavior_witness :
    updateRecord_enh (fun _ => 0) true .err "q1" 0
      [⟨"r1", "S001", "Student S001", some 5, none, "2026-01-01", RecStatus.checkedIn⟩]
      [] "missing" (closePatch ⟨"r1", "S001", "Student S001", some 5, none,
        "2026-01-01", RecStatus.checkedIn⟩ 7) =
      (.error .recordNotFound,
       [⟨"r1", "S001", "Student S001", some 5, none, "2026-01-01", RecStatus.checkedIn⟩],
       []) ∧
    updateStudent_enh (fun _ _ => 0) true .err "q2" 0
      [⟨"s1", "S001", "Student S001", none, none⟩] [] "missing"
      ⟨none, none, some "Renamed", none, none⟩ =
      (.error .studentNotFound, [⟨"s1", "S001", "Student S001", none, none⟩], []) ∧
    updateLoginRecord_enh true .err "q3" 0
      [⟨"g1", "T1", "Staff One", "staff", 3, none, none⟩] [] "missing"
      ⟨none, none, none, none, none, some (some 9), none⟩ =
      (.error .loginRecordNotFound,
       [⟨"g1", "T1", "Staff One", "staff", 3, none, none⟩], []) ∧
    (deleteRecord_enh (fun _ => 0) true .err "q4" 0
      [⟨"r1", "S001", "Student S001", some 5, none, "2026-01-01", RecStatus.checkedIn⟩]
      [] "missing").1 = .ok () ∧
    (deleteRecord_enh (fun _ => 0) true .err "q4" 0
      [⟨"r1", "S001", "Student S001", some 5, none, "2026-01-01", RecStatus.checkedIn⟩]
      [] "missing").2.2 = [⟨"q4", .recordDelete "missing", 0, 0, none⟩] ∧
    (deleteStudent_enh (fun _ _ => 0) true .err "q5" 0
      [⟨"s1", "S001", "Student S001", none, none⟩] [] "missing").1 = .ok () ∧
    (deleteStudent_enh (fun _ _ => 0) true .err "q5" 0
      [⟨"s1", "S001", "Student S001", none, none⟩] [] "missing").2.2 =
      [⟨"q5", .studentDelete "missing", 0, 0, none⟩] := by
  obtain ⟨h1, h2, h3, h4, h5⟩ := missing_id_behavior
  have habsr : ∀ r ∈ [(⟨"r1", "S001", "Student S001", some 5, none, "2026-01-01",
      RecStatus.checkedIn⟩ : LibraryRecord)], ¬ r.id = "missing" := by
    intro r hr
    simp only [List.mem_singleton] at hr
    subst hr
    simp
  have habss : ∀ s ∈ [(⟨"s1", "S001", "Student S001", none, none⟩ : Student)],
      ¬ s.id = "missing" := by
    intro s hs
    simp only [List.mem_singleton] at hs
    subst hs
    simp
  refine ⟨?_, ?_, ?_, ?_, ?_, ?_, ?_⟩
  · exact h1 (fun _ => 0) true .err "q1" 0 _ [] "missing" _ rfl
  · exact h2 (fun _ _ => 0) true .err "q2" 0 _ [] "missing" _ rfl
  · exact h3 true .err "q3" 0 _ [] "missing" _ rfl
  · exact (h4 (fun _ => 0) true .err "q4" 0 _ [] "missing" habsr).1
  · exact (h4 (fun _ => 0) true .err "q4" 0 _ [] "missing" habsr).2.2.2 (by
      rintro ⟨-, h⟩
      exact RemoteUpd.noConfusion h)
  · exact (h5 (fun _ _ => 0) true .err "q5" 0 _ [] "missing" habss).1
  · exact (h5 (fun _ _ => 0) true .err "q5" 0 _ [] "missing" habss).2.2.2 (by
      rintro ⟨-, h⟩
      exact RemoteUpd.noConfusion h)

/-- C3 counterexample: an item with `retryCount = 2` that fails its third
attempt is removed from the queue by the pass, but the permanently-failed
count `getSyncStatus` then reports is zero — the dropped item is not
counted. -/
theorem ceiling_failure_not_counted :
    attemptSyncPass (fun _ => false)
      [⟨"sync-1", .recordDelete "x", 0, 2, none⟩] = [] ∧
    ¬ 0 < failedStatusCount (attemptSyncPass (fun _ => false)
      [⟨"sync-1", .recordDelete "x", 0, 2, none⟩]) := by
  constructor
  · rfl
  · simp [failedStatusCount_attemptSyncPass]

/-- C3 amended: an item that fails with `retryCount + 1` still below the
ceiling of 3 remains queued (with the bumped count); an item that fails its
`retryCeiling`-th time is removed from the queue, counted only in the
per-pass tally — after the pass, the `failedItems` count `getSyncStatus`
derives from the queue is zero, since the ceiling-failed items are no longer
in it. -/
theorem retry_ceiling_boundary (ok : SyncQueueItem → Bool) (q : List SyncQueueItem)
    (hnodup : (q.map SyncQueueItem.id).Nodup) (it : SyncQueueItem) (hit : it ∈ q)
    (hfail : ok it = false) :
    (it.retryCount + 1 < maxRetries → bumpRetry it ∈ attemptSyncPass ok q) ∧
    (maxRetries ≤ it.retryCount + 1 → ∀ j ∈ attemptSyncPass ok q, j.id ≠ it.id) ∧
    failedStatusCount (attemptSyncPass ok q) = 0 :=
  ⟨fun h => bump_mem_attemptSyncPass ok q hnodup it hit hfail h,
   fun h => removed_of_ceiling_attemptSyncPass ok q it hit hfail h,
   failedStatusCount_attemptSyncPass ok q⟩

/-- Witness for `retry_ceiling_boundary`: a failing item with one prior
retry stays queued with its count bumped, and the reported failed count is
zero after the pass. -/
theorem retry_ceiling_boundary_witness :
    bumpRetry ⟨"sync-a", .recordDelete "x", 0, 1, none⟩ ∈
      attemptSyncPass (fun _ => false) [⟨"sync-a", .recordDelete "x", 0, 1, none⟩] ∧
    failedStatusCount (attemptSyncPass (fun _ => false)
      [⟨"sync-a", .recordDelete "x", 0, 1, none⟩]) = 0 := by
  have h := retry_ceiling_boundary (fun _ => false)
    [⟨"sync-a", .recordDelete "x", 0, 1, none⟩] (by simp)
    ⟨"sync-a", .recordDelete "x", 0, 1, none⟩ (by simp) rfl
  exact ⟨h.1 (by decide), h.2.2⟩

/-- `item.retryCount++` does not touch the item's id. -/
theorem bumpRetry_id (it : SyncQueueItem) : (bumpRetry it).id = it.id := rfl

/-- The `isSyncing` flag equals the presence of a running pass after any
trigger, whenever it did before: every trigger either leaves the machine
alone or enters `attemptSync`, whose guard refuses a second pass. -/
theorem syncInv_fireTrigger (t : SyncTrigger) (st : SyncMachine)
    (h : st.isSyncing = st.job.isSome) :
    (fireTrigger t st).isSyncing = (fireTrigger t st).job.isSome := by
  have entry : ∀ s : SyncMachine, s.isSyncing = s.job.isSome →
      (attemptSyncEntry s).isSyncing = (attemptSyncEntry s).job.isSome := by
    intro s hs
    unfold attemptSyncEntry
    split
    · exact hs
    · rfl
  cases t with
  | enqueueOnline qid payload qts localId =>
    simp only [fireTrigger]
    split
    · exact entry _ h
    · exact h
  | periodicTimer =>
    simp only [fireTrigger]
    split
    · exact entry _ h
    · exact h
  | onlineEvent => exact entry _ h
  | forceSync => exact entry _ h

/-- A pass resumption keeps the flag equal to the presence of a running
pass: it clears both together when the snapshot is exhausted. -/
theorem syncInv_syncStep (ok : SyncQueueItem → Bool) (st : SyncMachine)
    (h : st.isSyncing = st.job.isSome) :
    (syncStep ok st).isSyncing = (syncStep ok st).job.isSome := by
  cases hjob : st.job with
  | none => simpa [syncStep, hjob] using h
  | some job =>
    have hs : st.isSyncing = true := by rw [h, hjob]; rfl
    cases hrem : job.remaining with
    | nil => simp [syncStep, hjob, hrem]
    | cons it rest =>
      by_cases hok : ok it = true <;> simp [syncStep, hjob, hrem, hok, hs]

/-- A by-id bump misses every list element with a different id. -/
theorem map_bump_id_eq_of_not_mem (target : String) (l : List SyncQueueItem)
    (h : ∀ x ∈ l, x.id ≠ target) :
    l.map (fun j => if j.id == target then bumpRetry j else j) = l := by
  induction l with
  | nil => rfl
  | cons x xs ih =>
    simp only [List.map_cons]
    rw [if_neg, ih (fun y hy => h y (List.mem_cons_of_mem x hy))]
    simp [h x (List.mem_cons_self x xs)]

/-- Resuming a running pass to completion, one snapshot item at a time and
with no interleaved trigger, gives exactly the one-pass summary
`attemptSyncPass` (queue ids distinct, as `generateId` makes them). -/
theorem runSteps_job (ok : SyncQueueItem → Bool) :
    ∀ (rem done : List SyncQueueItem) (onl : Bool),
    ((done ++ rem).map (fun it => it.id)).Nodup →
    runSteps ok (rem.length + 1)
      ⟨done.map (fun it => if ok it then it else bumpRetry it) ++ rem, onl, true,
        some ⟨rem, (done.filter (fun it => ok it)).map (fun it => it.id),
          (done.filter (fun it =>
            !ok it && decide (maxRetries ≤ it.retryCount + 1))).map
            (fun it => it.id)⟩⟩ =
      ⟨attemptSyncPass ok (done ++ rem), onl, false, none⟩ := by
  intro rem
  induction rem with
  | nil =>
    intro done onl _
    simp [runSteps, syncStep, attemptSyncPass]
  | cons it rest ih =>
    intro done onl hnd
    show runSteps ok (rest.length + 1) (syncStep ok _) = _
    have hdone_ne : ∀ x ∈ done, x.id ≠ it.id := by
      intro x hx heq
      have : (done.map (fun it => it.id)).Disjoint
          ((it :: rest).map (fun it => it.id)) := by
        have := hnd
        rw [List.map_append] at this
        exact (List.nodup_append.mp this).2.2
      exact this (List.mem_map_of_mem _ hx) (by simp [heq])
    have hrest_ne : ∀ x ∈ rest, x.id ≠ it.id := by
      have : ((it :: rest).map (fun it => it.id)).Nodup := by
        have := hnd
        rw [List.map_append] at this
        exact (List.nodup_append.mp this).2.1
      intro x hx heq
      rcases List.nodup_cons.mp this with ⟨hni, _⟩
      exact hni (by simpa [← heq] using List.mem_map_of_mem (fun it => it.id) hx)
    have hnd' : (((done ++ [it]) ++ rest).map (fun it => it.id)).Nodup := by
      simpa [List.append_assoc] using hnd
    by_cases hok : ok it = true
    · have hstep : syncStep ok
          ⟨done.map (fun it => if ok it then it else bumpRetry it) ++ it :: rest, onl, true,
            some ⟨it :: rest, (done.filter (fun it => ok it)).map (fun it => it.id),
              (done.filter (fun it =>
                !ok it && decide (maxRetries ≤ it.retryCount + 1))).map
                (fun it => it.id)⟩⟩ =
          ⟨(done ++ [it]).map (fun it => if ok it then it else bumpRetry it) ++ rest,
            onl, true,
            some ⟨rest, ((done ++ [it]).filter (fun it => ok it)).map (fun it => it.id),
              ((done ++ [it]).filter (fun it =>
                !ok it && decide (maxRetries ≤ it.retryCount + 1))).map
                (fun it => it.id)⟩⟩ := by
        simp [syncStep, hok]
      rw [hstep, ih (done ++ [it]) onl hnd']
      simp [List.append_assoc]
    · have hokf : ok it = false := Bool.eq_false_iff.mpr hok
      have hqueue :
          (done.map (fun it => if ok it then it else bumpRetry it) ++ it :: rest).map
            (fun j => if j.id == it.id then bumpRetry j else j) =
          (done ++ [it]).map (fun it => if ok it then it else bumpRetry it) ++ rest := by
        rw [List.map_append]
        have h1 : (done.map (fun it => if ok it then it else bumpRetry it)).map
            (fun j => if j.id == it.id then bumpRetry j else j) =
            done.map (fun it => if ok it then it else bumpRetry it) := by
          apply map_bump_id_eq_of_not_mem
          intro x hx
          rcases List.mem_map.mp hx with ⟨y, hy, hyx⟩
          have : x.id = y.id := by
            subst hyx
            by_cases h : ok y = true <;> simp [h, bumpRetry_id]
          rw [this]
          exact hdone_ne y hy
        have h2 : ((it :: rest).map (fun j => if j.id == it.id then bumpRetry j else j)) =
            bumpRetry it :: rest := by
          simp only [List.map_cons]
          rw [if_pos (by simp)]
          congr 1
          apply map_bump_id_eq_of_not_mem
          exact hrest_ne
        rw [h1, h2, List.map_append]
        simp [hokf]
      have hsucc : ((done ++ [it]).filter (fun it => ok it)).map (fun it => it.id) =
          (done.filter (fun it => ok it)).map (fun it => it.id) := by
        simp [List.filter_append, hokf]
      have hfail : ((done ++ [it]).filter (fun it =>
            !ok it && decide (maxRetries ≤ it.retryCount + 1))).map (fun it => it.id) =
          (if maxRetries ≤ it.retryCount + 1 then
            ((done.filter (fun it =>
              !ok it && decide (maxRetries ≤ it.retryCount + 1))).map (fun it => it.id))
              ++ [it.id]
          else (done.filter (fun it =>
              !ok it && decide (maxRetries ≤ it.retryCount + 1))).map
              (fun it => it.id)) := by
        rw [List.filter_append]
        by_cases hc : maxRetries ≤ it.retryCount + 1
        · simp [hokf, hc]
        · simp [hokf, hc]
      have hstep : syncStep ok
          ⟨done.map (fun it => if ok it then it else bumpRetry it) ++ it :: rest, onl, true,
            some ⟨it :: rest, (done.filter (fun it => ok it)).map (fun it => it.id),
              (done.filter (fun it =>
                !ok it && decide (maxRetries ≤ it.retryCount + 1))).map
                (fun it => it.id)⟩⟩ =
          ⟨(done ++ [it]).map (fun it => if ok it then it else bumpRetry it) ++ rest,
            onl, true,
            some ⟨rest, ((done ++ [it]).filter (fun it => ok it)).map (fun it => it.id),
              ((done ++ [it]).filter (fun it =>
                !ok it && decide (maxRetries ≤ it.retryCount + 1))).map
                (fun it => it.id)⟩⟩ := by
        simp only [syncStep, hokf, Bool.false_eq_true, if_false]
        rw [hqueue, hsucc, hfail]
      rw [hstep, ih (done ++ [it]) onl hnd']
      simp [List.append_assoc]

/-- An undisturbed `attemptSync` call — entry guard, then one resumption per
snapshot item, then the finish step — transforms the queue by exactly
`attemptSyncPass` and clears the flag and the job. -/
theorem runSteps_attemptSyncEntry (ok : SyncQueueItem → Bool)
    (q : List SyncQueueItem) (hne : q ≠ [])
    (hnd : (q.map (fun it => it.id)).Nodup) :
    runSteps ok (q.length + 1) (attemptSyncEntry ⟨q, true, false, none⟩) =
      ⟨attemptSyncPass ok q, true, false, none⟩ := by
  have hentry : attemptSyncEntry ⟨q, true, false, none⟩ =
      ⟨q, true, true, some ⟨q, [], []⟩⟩ := by
    simp [attemptSyncEntry, hne]
  rw [hentry]
  have := runSteps_job ok q [] true (by simpa using hnd)
  simpa using this

/-- C9: at most one sync attempt is ever in flight.  Any trigger — an
enqueue while online, the periodic timer, the connectivity-restored event,
or `forcSync` — that fires while a sync is already running leaves the
running pass and the in-flight flag untouched and attempts no item (the
queue changes only by the push an enqueue performs); and across every
trigger and every pass resumption the `isSyncing` flag stays equal to the
presence of the single running pass. -/
theorem no_overlapping_sync (t : SyncTrigger) (st : SyncMachine)
    (h : st.isSyncing = true) :
    ((fireTrigger t st).job = st.job ∧ (fireTrigger t st).isSyncing = true ∧
      ((fireTrigger t st).queue = st.queue ∨
        ∃ qid payload qts localId, t = .enqueueOnline qid payload qts localId ∧
          (fireTrigger t st).queue = st.queue ++ [⟨qid, payload, qts, 0, localId⟩])) ∧
    (∀ (t2 : SyncTrigger) (st2 : SyncMachine), st2.isSyncing = st2.job.isSome →
      (fireTrigger t2 st2).isSyncing = (fireTrigger t2 st2).job.isSome) ∧
    (∀ (ok : SyncQueueItem → Bool) (st2 : SyncMachine),
      st2.isSyncing = st2.job.isSome →
      (syncStep ok st2).isSyncing = (syncStep ok st2).job.isSome) := by
  refine ⟨?_, fun t2 st2 h2 => syncInv_fireTrigger t2 st2 h2,
    fun ok st2 h2 => syncInv_syncStep ok st2 h2⟩
  cases t with
  | enqueueOnline qid payload qts localId =>
    refine ⟨?_, ?_, Or.inr ⟨qid, payload, qts, localId, rfl, ?_⟩⟩ <;>
      simp [fireTrigger, attemptSyncEntry, h]
  | periodicTimer =>
    refine ⟨?_, ?_, Or.inl ?_⟩ <;> simp [fireTrigger, attemptSyncEntry, h]
  | onlineEvent =>
    refine ⟨?_, ?_, Or.inl ?_⟩ <;> simp [fireTrigger, attemptSyncEntry, h]
  | forceSync =>
    refine ⟨?_, ?_, Or.inl ?_⟩ <;> simp [fireTrigger, attemptSyncEntry, h]

/-- Witness for `no_overlapping_sync`: a manual `forcSync` fired while a
pass is suspended mid-queue leaves the pass and the flag in place. -/
theorem no_overlapping_sync_witness :
    (fireTrigger .forceSync
      ⟨[⟨"sync-a", .recordDelete "x", 0, 0, none⟩], true, true,
        some ⟨[⟨"sync-a", .recordDelete "x", 0, 0, none⟩], [], []⟩⟩).job =
      some ⟨[⟨"sync-a", .recordDelete "x", 0, 0, none⟩], [], []⟩ ∧
    (fireTrigger .forceSync
      ⟨[⟨"sync-a", .recordDelete "x", 0, 0, none⟩], true, true,
        some ⟨[⟨"sync-a", .recordDelete "x", 0, 0, none⟩], [], []⟩⟩).isSyncing = true := by
  have h := no_overlapping_sync .forceSync
    ⟨[⟨"sync-a", .recordDelete "x", 0, 0, none⟩], true, true,
      some ⟨[⟨"sync-a", .recordDelete "x", 0, 0, none⟩], [], []⟩⟩ rfl
  exact ⟨h.1.1, h.1.2.1⟩

/-! Queue retry of creates (source: `syncRecord` / `syncLoginRecord` /
`updateLocalRecordId` in offline-sync.ts, over the plain `AppwriteService`
create methods of appwrite.ts). -/

/-- Plain `createRecord` with its remote attempt: on remote success the
document lands in the remote collection; on failure, or unconfigured, the
localStorage fallback appends a fresh `local-` record.  The call never
throws.  Returns (result, remote collection, local collection). -/
def createRecord_plain (cfg : Bool) (rw : RemoteWrite) (fallbackId : String)
    (remote locals : List LibraryRecord) (record : RecordInput) :
    LibraryRecord × List LibraryRecord × List LibraryRecord :=
  if cfg then
    match rw with
    | .ok sid => (record.withId sid, remote ++ [record.withId sid], locals)
    | .err _ =>
      (record.withId fallbackId, remote, locals ++ [record.withId fallbackId])
  else (record.withId fallbackId, remote, locals ++ [record.withId fallbackId])

/-- `updateLocalRecordId(localId, newId)`: rewrite the `$id` of the first
matching local record, if any. -/
def updateLocalRecordId (localId newId : String) (recs : List LibraryRecord) :
    List LibraryRecord :=
  match updateFirst (fun r => r.id == localId) (fun r => { r with id := newId }) recs with
  | some (l, _) => l
  | none => recs

/-- `syncRecord` on a queued `create records` item: run the plain create,
then rewrite the local temporary id to the id of whatever was returned.
Returns (remote collection, local collection). -/
def syncRecordCreate (cfg : Bool) (rw : RemoteWrite) (fallbackId : String)
    (remote locals : List LibraryRecord) (data : RecordInput) (localId : String) :
    List LibraryRecord × List LibraryRecord :=
  let created := createRecord_plain cfg rw fallbackId remote locals data
  (created.2.1, updateLocalRecordId localId created.1.id created.2.2)

/-- Plain `createLoginRecord` with its remote attempt (same shape as
`createRecord_plain`). -/
def createLoginRecord_plain (cfg : Bool) (rw : RemoteWrite) (fallbackId : String)
    (remote locals : List LoginRecord) (lr : LoginInput) :
    LoginRecord × List LoginRecord × List LoginRecord :=
  if cfg then
    match rw with
    | .ok sid => (lr.withId sid, remote ++ [lr.withId sid], locals)
    | .err _ => (lr.withId fallbackId, remote, locals ++ [lr.withId fallbackId])
  else (lr.withId fallbackId, remote, locals ++ [lr.withId fallbackId])

/-- `syncLoginRecord` on a queued `create login-records` item: run the plain
create and nothing else — in particular no local id rewrite happens. -/
def syncLoginRecordCreate (cfg : Bool) (rw : RemoteWrite) (fallbackId : String)
    (remote locals : List LoginRecord) (lr : LoginInput) :
    List LoginRecord × List LoginRecord :=
  let created := createLoginRecord_plain cfg rw fallbackId remote locals lr
  (created.2.1, created.2.2)

/-- C4 counterexample: the claim fails for two of the three create
operations.  `createStudent` (enhanced) on an unseen admission id never
appends the entity nor returns a result — at recursion depth 1000 the call
has not produced anything.  And a queued `createLoginRecord` whose remote
retry succeeds performs no local id rewrite: the local copy keeps its
temporary identifier. -/
theorem create_path_claim_fails :
    createStudent_enh 1000
      ⟨true, some [], .ok "srv-9", "local-9", "sync-9", 0, fun _ _ => 0⟩
      ⟨[], []⟩ ⟨"S002", "Student " ++ "S002", none, none⟩ = none ∧
    (syncLoginRecordCreate true (.ok "srv-5") "local-f" []
      [⟨"local-5", "T1", "Staff One", "staff", 3, none, none⟩]
      ⟨"T1", "Staff One", "staff", 3, none, none⟩).2 =
      [⟨"local-5", "T1", "Staff One", "staff", 3, none, none⟩] := by
  constructor
  · exact (studentPath_diverges
      ⟨true, some [], .ok "srv-9", "local-9", "sync-9", 0, fun _ _ => 0⟩
      ⟨[], []⟩ "S002" (by rfl) (by rfl) 1000).2
  · rfl

/-- C4 amended, covering what the code does deliver: `createRecord` and
`createLoginRecord` append the entity locally under the generated temporary
id and return that record synchronously, enqueuing the create when offline;
on an immediate remote success the temporary id is rewritten to the server
id; a queued record create that later succeeds remotely also rewrites the
local temporary id — but a queued login-record create does not (the sync
handler performs no rewrite), and `createStudent` never reaches its append
(see the counterexample). -/
theorem create_path_behavior (dv : String → Nat) :
    (∀ (remoteRead : Option (List LibraryRecord)) (rw : RemoteWrite)
        (localId qid : String) (qts : Nat) (locals : List LibraryRecord)
        (queue : List SyncQueueItem) (record : RecordInput),
      ((sortRecords_enh dv locals).filter (fun r => r.date == record.date)).find?
        (fun r => r.admissionId == record.admissionId && r.date == record.date &&
          r.status == record.status) = none →
      createRecord_enh dv false remoteRead rw localId qid qts locals queue record =
        (record.withId localId,
         sortRecords_enh dv (sortRecords_enh dv locals ++ [record.withId localId]),
         queue ++ [⟨qid, .recordCreate record, qts, 0, some localId⟩])) ∧
    (∀ (sid fallbackId localId : String) (remote locals : List LibraryRecord)
        (data : RecordInput) (rec0 : LibraryRecord),
      locals.filter (fun r => r.id == localId) = [rec0] →
      ¬ sid = localId →
      (syncRecordCreate true (.ok sid) fallbackId remote locals data localId).1 =
        remote ++ [data.withId sid] ∧
      { rec0 with id := sid } ∈
        (syncRecordCreate true (.ok sid) fallbackId remote locals data localId).2 ∧
      (∀ r ∈ (syncRecordCreate true (.ok sid) fallbackId remote locals data localId).2,
        ¬ r.id = localId)) ∧
    (∀ (remoteRead : Option (List LibraryRecord)) (sid localId qid : String)
        (qts : Nat) (locals : List LibraryRecord) (queue : List SyncQueueItem)
        (record : RecordInput),
      (getRecordsByDate_enh dv true remoteRead locals record.date).find?
        (fun r => r.admissionId == record.admissionId && r.date == record.date &&
          r.status == record.status) = none →
      (∀ r ∈ locals, ¬ r.id = localId) →
      ¬ sid = localId →
      record.withId sid ∈
        (createRecord_enh dv true remoteRead (.ok sid) localId qid qts locals queue
          record).2.1 ∧
      (∀ r ∈ (createRecord_enh dv true remoteRead (.ok sid) localId qid qts locals
          queue record).2.1, ¬ r.id = localId)) ∧
    (∀ (rw : RemoteWrite) (localId qid : String) (qts : Nat)
        (logins : List LoginRecord) (queue : List SyncQueueItem) (lr : LoginInput),
      createLoginRecord_enh false rw localId qid qts logins queue lr =
        (lr.withId localId, sortLogins_enh (sortLogins_enh logins ++ [lr.withId localId]),
         queue ++ [⟨qid, .loginCreate lr, qts, 0, none⟩])) ∧
    (∀ (sid fallbackId : String) (remote locals : List LoginRecord) (lr : LoginInput),
      syncLoginRecordCreate true (.ok sid) fallbackId remote locals lr =
        (remote ++ [lr.withId sid], locals)) := by
  refine ⟨?_, ?_, ?_, ?_, ?_⟩
  · intro remoteRead rw localId qid qts locals queue record hdup
    rw [createRecord_enh]
    simp only [getRecordsByDate_enh, if_false, Bool.false_eq_true, hdup]
  · intro sid fallbackId localId remote locals data rec0 hfilter hsid
    obtain ⟨l₁, l₂, hdecomp, hl₁, hl₂, hupd⟩ :=
      updateFirst_of_filter_singleton (fun r => r.id == localId)
        (fun r => { r with id := sid }) locals rec0 hfilter
    have hsync : syncRecordCreate true (.ok sid) fallbackId remote locals data localId =
        (remote ++ [data.withId sid], l₁ ++ { rec0 with id := sid } :: l₂) := by
      rw [syncRecordCreate, createRecord_plain]
      simp only [if_pos trivial, updateLocalRecordId, RecordInput.withId, hupd]
    refine ⟨by rw [hsync], by rw [hsync]; simp, ?_⟩
    intro r hr
    rw [hsync] at hr
    rcases List.mem_append.mp hr with hr' | hr'
    · have := hl₁ r hr'
      simpa using this
    · rcases List.mem_cons.mp hr' with rfl | hr''
      · simpa using hsid
      · have := hl₂ r hr''
        simpa using this
  · intro remoteRead sid localId qid qts locals queue record hdup hfresh hsid
    have hres : (createRecord_enh dv true remoteRead (.ok sid) localId qid qts locals
        queue record).2.1 =
        sortRecords_enh dv ((sortRecords_enh dv locals ++ [record.withId localId]).map
          (fun r => if r.id == localId then { r with id := sid } else r)) := by
      rw [createRecord_enh]
      simp only [hdup]
      simp
    constructor
    · rw [hres, sortRecords_enh, mem_jsSort, List.mem_map]
      refine ⟨record.withId localId, by simp, ?_⟩
      simp [RecordInput.withId]
    · intro r hr
      rw [hres, sortRecords_enh, mem_jsSort, List.mem_map] at hr
      obtain ⟨r0, hr0, rfl⟩ := hr
      by_cases h0 : r0.id == localId
      · simp [h0, hsid]
      · simp only [h0, if_false, Bool.false_eq_true]
        simpa using h0
  · intro rw localId qid qts logins queue lr
    simp [createLoginRecord_enh]
  · intro sid fallbackId remote locals lr
    rfl

/-- Witness for `create_path_behavior` at concrete inputs: an offline record
create appends under the temporary id and enqueues; the queued retry rewrite
yields the server id; the offline login create appends; the login sync
leaves the local copy untouched. -/
theorem create_path_behavior_witness :
    (createRecord_enh (fun _ => 0) false none (.err false) "local-1" "q1" 0 [] []
      ⟨"S001", "Student S001", some 5, none, "2026-01-01", RecStatus.checkedIn⟩).2.2 =
      [⟨"q1", .recordCreate ⟨"S001", "Student S001", some 5, none, "2026-01-01",
        RecStatus.checkedIn⟩, 0, 0, some "local-1"⟩] ∧
    ({ (⟨"local-1", "S001", "Student S001", some 5, none, "2026-01-01",
        RecStatus.checkedIn⟩ : LibraryRecord) with id := "srv-1" } ∈
      (syncRecordCreate true (.ok "srv-1") "local-f" []
        [⟨"local-1", "S001", "Student S001", some 5, none, "2026-01-01",
          RecStatus.checkedIn⟩]
        ⟨"S001", "Student S001", some 5, none, "2026-01-01", RecStatus.checkedIn⟩
        "local-1").2) ∧
    syncLoginRecordCreate true (.ok "srv-5") "local-f" []
      [⟨"local-5", "T1", "Staff One", "staff", 3, none, none⟩]
      ⟨"T1", "Staff One", "staff", 3, none, none⟩ =
      ([LoginInput.withId "srv-5" ⟨"T1", "Staff One", "staff", 3, none, none⟩],
       [⟨"local-5", "T1", "Staff One", "staff", 3, none, none⟩]) := by
  obtain ⟨h1, h2, h3, h4, h5⟩ := create_path_behavior (fun _ => 0)
  refine ⟨?_, ?_, ?_⟩
  · exact congrArg (fun x => x.2.2) (h1 none (.err false) "local-1" "q1" 0 [] []
      ⟨"S001", "Student S001", some 5, none, "2026-01-01", RecStatus.checkedIn⟩ rfl)
  · exact (h2 "srv-1" "local-f" "local-1" []
      [⟨"local-1", "S001", "Student S001", some 5, none, "2026-01-01",
        RecStatus.checkedIn⟩]
      ⟨"S001", "Student S001", some 5, none, "2026-01-01", RecStatus.checkedIn⟩
      ⟨"local-1", "S001", "Student S001", some 5, none, "2026-01-01",
        RecStatus.checkedIn⟩ rfl (by simp)).2.1
  · exact h5 "srv-5" "local-f" []
      [⟨"local-5", "T1", "Staff One", "staff", 3, none, none⟩]
      ⟨"T1", "Staff One", "staff", 3, none, none⟩

/-! Plain `AppwriteService` student path with its remote branches (source:
`checkAdmissionIdExists`, `createStudent`, `getStudentByAdmissionId` in
appwrite.ts), and `syncStudent` / `updateLocalStudentId` of offline-sync.ts. -/

/-- The duplicate error the plain `createStudent` throws. -/
inductive PlainErr where
  | alreadyExists
deriving DecidableEq, Repr

/-- Plain `checkAdmissionIdExists`: remote `Query.equal` on the trimmed probe
when configured and the query succeeds, case-insensitive local check
otherwise. -/
def checkAdmissionIdExists_plain (cfg remoteReadOk : Bool)
    (remoteStudents locals : List Student) (admissionId : String) : Bool :=
  if cfg && remoteReadOk then
    (remoteStudents.find? (fun s => s.admissionId == admissionId.trim)).isSome
  else locals.any (fun s => s.admissionId.toLower == admissionId.toLower.trim)

/-- Plain `createStudent` with its remote attempt: duplicate pre-check, then
remote create (appending to the remote roster on success); on remote failure
a case-insensitive local duplicate check guards the localStorage fallback,
which itself re-checks before pushing.  Returns (result, remote roster,
local roster). -/
def createStudent_plain (cfg remoteReadOk : Bool) (rw : RemoteWrite)
    (fallbackId : String) (remoteStudents locals : List Student) (stu : StudentInput) :
    Except PlainErr (Student × List Student × List Student) :=
  if checkAdmissionIdExists_plain cfg remoteReadOk remoteStudents locals stu.admissionId
  then .error .alreadyExists
  else if cfg then
    match rw with
    | .ok sid => .ok (stu.withId sid, remoteStudents ++ [stu.withId sid], locals)
    | .err _ =>
      if locals.any (fun s => s.admissionId.toLower == stu.admissionId.toLower)
      then .error .alreadyExists
      else if locals.any (fun s => s.admissionId.toLower == stu.admissionId.toLower)
      then .error .alreadyExists
      else .ok (stu.withId fallbackId, remoteStudents, locals ++ [stu.withId fallbackId])
  else
    if locals.any (fun s => s.admissionId.toLower == stu.admissionId.toLower)
    then .error .alreadyExists
    else .ok (stu.withId fallbackId, remoteStudents, locals ++ [stu.withId fallbackId])

/-- Plain `getStudentByAdmissionId` with its remote branch: remote exact
query (errors and misses fall through), local exact lookup, then lazy
creation through the plain `createStudent`.  Every return path yields a
student. -/
def getStudentByAdmissionId_plain (cfg remoteReadOk : Bool) (rw : RemoteWrite)
    (fallbackId : String) (remoteStudents locals : List Student) (admissionId : String) :
    Except PlainErr (Student × List Student × List Student) :=
  match (if cfg && remoteReadOk then
      remoteStudents.find? (fun s => s.admissionId == admissionId) else none) with
  | some s => .ok (s, remoteStudents, locals)
  | none =>
    match locals.find? (fun s => s.admissionId == admissionId) with
    | some s => .ok (s, remoteStudents, locals)
    | none =>
      createStudent_plain cfg remoteReadOk rw fallbackId remoteStudents locals
        ⟨admissionId, "Student " ++ admissionId, none, none⟩

/-- `updateLocalStudentId(localId, newId)`: rewrite the `$id` of the first
matching local roster entry, if any. -/
def updateLocalStudentId (localId newId : String) (studs : List Student) : List Student :=
  match updateFirst (fun s => s.id == localId) (fun s => { s with id := newId }) studs with
  | some (l, _) => l
  | none => studs

/-- `syncStudent` on a queued `create students` item: re-fetch by admission
id first.  Because the plain `getStudentByAdmissionId` never resolves to
null, the fetched entry is always used: the queued create is skipped and the
local temporary id reconciled to the fetched entry's id (the unreachable
"create then reconcile" branch of the source is therefore not represented).
Returns (remote roster, local roster) on success. -/
def syncStudentCreate (cfg remoteReadOk : Bool) (rw : RemoteWrite)
    (fallbackId : String) (remoteStudents locals : List Student)
    (data : StudentInput) (localId : String) :
    Except PlainErr (List Student × List Student) :=
  match getStudentByAdmissionId_plain cfg remoteReadOk rw fallbackId remoteStudents
      locals data.admissionId with
  | .error e => .error e
  | .ok (existingStudent, remote1, locals1) =>
    .ok (remote1, updateLocalStudentId localId existingStudent.id locals1)

/-- C5: retrying a queued roster-entry create when an entry with that
admission id already exists remotely creates no duplicate remote entity
(the remote roster is unchanged), succeeds — so the pass discards the queued
item — and reconciles the local entity's temporary id to the existing remote
id. -/
theorem student_create_retry_idempotent (rw : RemoteWrite) (fallbackId : String)
    (remoteStudents locals : List Student) (data : StudentInput) (localId : String)
    (s : Student) (rec0 : Student)
    (hremote : remoteStudents.find? (fun x => x.admissionId == data.admissionId) = some s)
    (hfilter : locals.filter (fun x => x.id == localId) = [rec0])
    (hsid : ¬ s.id = localId) :
    (syncStudentCreate true true rw fallbackId remoteStudents locals data localId =
      .ok (remoteStudents, updateLocalStudentId localId s.id locals)) ∧
    ({ rec0 with id := s.id } ∈ updateLocalStudentId localId s.id locals ∧
      ∀ x ∈ updateLocalStudentId localId s.id locals, ¬ x.id = localId) ∧
    (∀ (it : SyncQueueItem) (okFn : SyncQueueItem → Bool),
      okFn it = true → attemptSyncPass okFn [it] = []) := by
  obtain ⟨l₁, l₂, hdecomp, hl₁, hl₂, hupd⟩ :=
    updateFirst_of_filter_singleton (fun x => x.id == localId)
      (fun x => { x with id := s.id }) locals rec0 hfilter
  have hrewrite : updateLocalStudentId localId s.id locals =
      l₁ ++ { rec0 with id := s.id } :: l₂ := by
    rw [updateLocalStudentId, hupd]
  refine ⟨?_, ⟨?_, ?_⟩, ?_⟩
  · rw [syncStudentCreate, getStudentByAdmissionId_plain]
    simp only [Bool.and_self, if_pos, hremote]
  · rw [hrewrite]
    simp
  · intro x hx
    rw [hrewrite] at hx
    rcases List.mem_append.mp hx with hx' | hx'
    · simpa using hl₁ x hx'
    · rcases List.mem_cons.mp hx' with rfl | hx''
      · simpa using hsid
      · simpa using hl₂ x hx''
  · intro it okFn hok
    simp [attemptSyncPass, hok]

/-- Witness for `student_create_retry_idempotent` at a concrete store: the
remote roster already holds S001 under `srv-7`; the retry leaves the remote
roster unchanged and reconciles the local copy. -/
theorem student_create_retry_idempotent_witness :
    syncStudentCreate true true (.ok "unused") "local-f"
      [⟨"srv-7", "S001", "Student S001", none, none⟩]
      [⟨"local-7", "S001", "Student S001", none, none⟩]
      ⟨"S001", "Student S001", none, none⟩ "local-7" =
      .ok ([⟨"srv-7", "S001", "Student S001", none, none⟩],
           updateLocalStudentId "local-7" "srv-7"
             [⟨"local-7", "S001", "Student S001", none, none⟩]) ∧
    attemptSyncPass (fun _ => true)
      [⟨"sync-7", .studentCreate ⟨"S001", "Student S001", none, none⟩, 0, 0,
        some "local-7"⟩] = [] := by
  have h := student_create_retry_idempotent (.ok "unused") "local-f"
    [⟨"srv-7", "S001", "Student S001", none, none⟩]
    [⟨"local-7", "S001", "Student S001", none, none⟩]
    ⟨"S001", "Student S001", none, none⟩ "local-7"
    ⟨"srv-7", "S001", "Student S001", none, none⟩
    ⟨"local-7", "S001", "Student S001", none, none⟩ rfl rfl (by simp)
  exact ⟨h.1, h.2.2 _ _ rfl⟩

/-! The online scan path (source: `handleScan` / `handleCheckIn` /
`handleCheckOut` in dashboard.tsx over the remote branches of the plain
service). -/

/-- Plain `getRecordsByDate`, remote branch: the server answers
`Query.equal("date", ...)` over the remote records collection (its ordering
is redone client-side by `getStudentCurrentStatus`, so it is left as
stored). -/
def getRecordsByDate_plainRemote (remote : List LibraryRecord) (date : String) :
    List LibraryRecord :=
  remote.filter (fun r => r.date == date)

/-- `getStudentCurrentStatus` over the remote read path. -/
def getStudentCurrentStatus_online (dv : String → Nat) (remote : List LibraryRecord)
    (admissionId date : String) : Bool × Option LibraryRecord :=
  let todaysRecords := getRecordsByDate_plainRemote remote date
  let studentRecords :=
    jsSort (descCmp (recTimeKey dv))
      (todaysRecords.filter (fun r => r.admissionId == admissionId))
  let lastRecord := studentRecords.head?
  (match lastRecord with
   | some r => r.status == RecStatus.checkedIn
   | none => false, lastRecord)

/-- The four collections the online scan path touches. -/
structure OnlineState where
  remoteRecords : List LibraryRecord
  remoteStudents : List Student
  localRecords : List LibraryRecord
  localStudents : List Student
deriving DecidableEq, Repr

/-- Plain `updateRecord` with its remote branch: the remote update patches
the addressed document (document-store contract `updateDocument`); a thrown
error or missing document falls back to the local merge, which throws when
the id is absent locally too. -/
def updateRecord_plain (cfg remoteOk : Bool) (recordId : String)
    (updates : RecordPatch) (remote locals : List LibraryRecord) :
    Except Unit (LibraryRecord × List LibraryRecord × List LibraryRecord) :=
  if cfg && !recordId.startsWith "local-" && remoteOk then
    match updateFirst (fun r => r.id == recordId) (fun r => r.applyPatch updates)
        remote with
    | some (remote1, merged) => .ok (merged, remote1, locals)
    | none =>
      match updateFirst (fun r => r.id == recordId) (fun r => r.applyPatch updates)
          locals with
      | some (l, v) => .ok (v, remote, l)
      | none => .error ()
  else
    match updateFirst (fun r => r.id == recordId) (fun r => r.applyPatch updates)
        locals with
    | some (l, v) => .ok (v, remote, l)
    | none => .error ()

/-- `handleCheckIn` while online: roster lookup (lazily creating the entry,
remotely on success), then `createRecord` against the remote collection; a
thrown error is caught (toast only). -/
def handleCheckIn_online (rwStu rwRec : RemoteWrite) (fallbackSid fallbackRid : String)
    (st : OnlineState) (aid today : String) (now : Nat) : OnlineState × ScanAction :=
  match getStudentByAdmissionId_plain true true rwStu fallbackSid st.remoteStudents
      st.localStudents aid with
  | .error _ => (st, .checkInFailed)
  | .ok (studentData, remoteStu1, localStu1) =>
    let studentName :=
      if studentData.name == "" then "Student " ++ aid else studentData.name
    let newRecord : RecordInput :=
      ⟨aid, studentName, some now, none, today, RecStatus.checkedIn⟩
    let created := createRecord_plain true rwRec fallbackRid st.remoteRecords
      st.localRecords newRecord
    (⟨created.2.1, remoteStu1, created.2.2, localStu1⟩, .opened)

/-- `handleCheckOut` while online. -/
def handleCheckOut_online (remoteOk : Bool) (st : OnlineState) (r : LibraryRecord)
    (now : Nat) : OnlineState × ScanAction :=
  if r.status != RecStatus.checkedIn then (st, .skipped)
  else
    match updateRecord_plain true remoteOk r.id (closePatch r now) st.remoteRecords
        st.localRecords with
    | .ok (_, remote1, locals1) =>
      (⟨remote1, st.remoteStudents, locals1, st.localStudents⟩, .closed)
    | .error _ => (st, .checkOutFailed)

/-- One online scan (`handleScan` in dashboard.tsx, connected service). -/
def handleScan_online (dv : String → Nat) (remoteOk : Bool)
    (rwStu rwRec : RemoteWrite) (fallbackSid fallbackRid : String)
    (st : OnlineState) (aid today : String) (now : Nat) : OnlineState × ScanAction :=
  let studentStatus := getStudentCurrentStatus_online dv st.remoteRecords aid today
  if studentStatus.1 then
    match studentStatus.2 with
    | some r => handleCheckOut_online remoteOk st r now
    | none => (st, .skipped)
  else handleCheckIn_online rwStu rwRec fallbackSid fallbackRid st aid today now

/-- C6: a scan of a subject with no roster entry and no attendance record
today, while online, auto-registers the subject — a roster entry named
`Student <admissionId>` is created — and opens an attendance record with
today's date and `checked-in` status, both appended to the remote store. -/
theorem scan_auto_registers_online (dv : String → Nat) (remoteOk : Bool)
    (fallbackSid fallbackRid sid rid : String) (st : OnlineState)
    (aid today : String) (now : Nat)
    (hnoRemoteStu : st.remoteStudents.find? (fun s => s.admissionId == aid) = none)
    (hnoRemoteStuTrim :
      st.remoteStudents.find? (fun s => s.admissionId == aid.trim) = none)
    (hnoLocalStu : st.localStudents.find? (fun s => s.admissionId == aid) = none)
    (hnoRec : ∀ r ∈ st.remoteRecords, ¬(r.admissionId = aid ∧ r.date = today)) :
    handleScan_online dv remoteOk (.ok sid) (.ok rid) fallbackSid fallbackRid st aid
      today now =
      (⟨st.remoteRecords ++
          [⟨rid, aid, "Student " ++ aid, some now, none, today, RecStatus.checkedIn⟩],
        st.remoteStudents ++ [⟨sid, aid, "Student " ++ aid, none, none⟩],
        st.localRecords, st.localStudents⟩, .opened) := by
  have hpool : (getRecordsByDate_plainRemote st.remoteRecords today).filter
      (fun r => r.admissionId == aid) = [] := by
    rw [List.filter_eq_nil_iff]
    intro r hr
    rw [getRecordsByDate_plainRemote, List.mem_filter] at hr
    have := hnoRec r hr.1
    simp only [beq_iff_eq]
    intro ha
    exact this ⟨ha, by simpa using hr.2⟩
  have hstatus : getStudentCurrentStatus_online dv st.remoteRecords aid today =
      (false, none) := by
    rw [getStudentCurrentStatus_online]
    simp [hpool, jsSort]
  have hexists : checkAdmissionIdExists_plain true true st.remoteStudents
      st.localStudents aid = false := by
    rw [checkAdmissionIdExists_plain]
    simp [hnoRemoteStuTrim]
  have hG : getStudentByAdmissionId_plain true true (.ok sid) fallbackSid
      st.remoteStudents st.localStudents aid =
      .ok (⟨sid, aid, "Student " ++ aid, none, none⟩,
        st.remoteStudents ++ [⟨sid, aid, "Student " ++ aid, none, none⟩],
        st.localStudents) := by
    rw [getStudentByAdmissionId_plain]
    simp only [Bool.and_self, if_pos, hnoRemoteStu, hnoLocalStu]
    rw [createStudent_plain]
    simp only [hexists, if_false, Bool.false_eq_true, if_pos trivial]
    rfl
  rw [handleScan_online]
  simp only [hstatus]
  rw [handleCheckIn_online, hG]
  simp [createRecord_plain, RecordInput.withId]

/-- Witness for `scan_auto_registers_online`: subject S001, empty stores,
scan at time 9 — the remote store gains roster entry `Student S001` and an
open record for today. -/
theorem scan_auto_registers_online_witness :
    handleScan_online (fun _ => 0) true (.ok "srv-1") (.ok "srv-2") "lf1" "lf2"
      ⟨[], [], [], []⟩ "S001" "2026-01-01" 9 =
      (⟨[⟨"srv-2", "S001", "Student " ++ "S001", some 9, none, "2026-01-01",
          RecStatus.checkedIn⟩],
        [⟨"srv-1", "S001", "Student " ++ "S001", none, none⟩], [], []⟩, .opened) :=
  scan_auto_registers_online (fun _ => 0) true "lf1" "lf2" "srv-1" "srv-2"
    ⟨[], [], [], []⟩ "S001" "2026-01-01" 9 rfl rfl rfl (by simp)

end LibAttend
